import Mathlib

/-!
# Verification of the `ray` raycasting engine (src/game.ts)

Shallow embedding of the rendering/simulation core of the repository over
exact rationals.  JavaScript numbers are IEEE doubles, every one of which
is a rational number; we model arithmetic exactly over `ℚ` (the standard
idealisation for this kind of code).  The transcendental library functions
(`Math.cos`, `Math.sin`, `Math.PI`, `Math.sqrt`, `Math.random`) cannot be
rational-valued functions of rational arguments, so they are passed as
explicit parameters (`Trig`, a square-root function, a random stream);
every theorem below is proved for *arbitrary* such parameters, and
concrete counterexamples instantiate them with values that agree with the
real functions at every argument actually used.

JS mutable objects are modelled functionally: each mutating method of
`Vector2`/`Vector3` becomes a pure function returning the new value, and
each engine procedure returns the updated state.  JS arrays indexed by
nonnegative integers are modelled as index functions `ℕ → _` (framebuffer
bytes, z-buffer) or as lists (scene walls, pools); `Uint8ClampedArray`
stores are modelled by `clampByte` (clamp to `[0,255]`, round half to
even, exactly the ECMAScript `Uint8ClampedArray` conversion).
-/
/-! ## Numeric prelude -/
/-- Model of `Math.sign` restricted to the values the engine feeds it (finite numbers). -/
def qsign (q : ℚ) : ℚ :=
  if 0 < q then 1 else if q < 0 then -1 else 0

/-- Model of `EPS` from src/game.ts line 3 (`1e-6`). -/
def EPS : ℚ := 1 / 1000000

/-- Model of `NEAR_CLIPPING_PLANE` (game.ts line 4). -/
def NEAR_CLIPPING_PLANE : ℚ := 1 / 10

/-- Model of `FAR_CLIPPING_PLANE` (game.ts line 5). -/
def FAR_CLIPPING_PLANE : ℚ := 10

/-- Model of `PLAYER_SPEED` (game.ts line 8). -/
def PLAYER_SPEED : ℚ := 2

/-- Model of `PLAYER_RADIUS` (game.ts line 9). -/
def PLAYER_RADIUS : ℚ := 1 / 2

/-- Model of `MINIMAP_PLAYER_SIZE` (game.ts line 35), the player's collision box side. -/
def MINIMAP_PLAYER_SIZE : ℚ := 1 / 2

/-- Model of `BOMB_LIFETIME` (game.ts line 19). -/
def BOMB_LIFETIME : ℚ := 2

/-- Model of `BOMB_THROW_VELOCITY` (game.ts line 20). -/
def BOMB_THROW_VELOCITY : ℚ := 5

/-- Model of `BOMB_GRAVITY` (game.ts line 21). -/
def BOMB_GRAVITY : ℚ := 10

/-- Model of `BOMB_DAMP` (game.ts line 22). -/
def BOMB_DAMP : ℚ := 4 / 5

/-- Model of `BOMB_SCALE` (game.ts line 23). -/
def BOMB_SCALE : ℚ := 1 / 4

/-- Model of `BOMB_PARTICLE_COUNT` (game.ts line 24). -/
def BOMB_PARTICLE_COUNT : ℕ := 50

/-- Model of `PARTICLE_LIFETIME` (game.ts line 26). -/
def PARTICLE_LIFETIME : ℚ := 1

/-- Model of `PARTICLE_GRAVITY` (game.ts line 27). -/
def PARTICLE_GRAVITY : ℚ := 10

/-- Model of `PARTICLE_DAMP` (game.ts line 28). -/
def PARTICLE_DAMP : ℚ := 4 / 5

/-- Model of `PARTICLE_SCALE` (game.ts line 29). -/
def PARTICLE_SCALE : ℚ := 1 / 10

/-- Model of `PARTICLE_MAX_SPEED` (game.ts line 30). -/
def PARTICLE_MAX_SPEED : ℚ := 8

/-- Model of `ITEM_FREQ` (game.ts line 16). -/
def ITEM_FREQ : ℚ := 7 / 10

/-- Model of `ITEM_AMP` (game.ts line 17). -/
def ITEM_AMP : ℚ := 7 / 100

/-- The transcendental primitives the engine calls, as abstract rational
functions: `cos`/`sin` stand for `Math.cos`/`Math.sin` and `pi` for
`Math.PI` (a double, hence a rational). -/
structure Trig where
  cos : ℚ → ℚ
  sin : ℚ → ℚ
  pi : ℚ

/-- Model of `FOV = Math.PI*0.5` (game.ts line 6). -/
def FOV (trig : Trig) : ℚ := trig.pi * (1 / 2)

/-- Model of `HALF_FOV_COS = Math.cos(FOV*0.5)` (game.ts line 7). -/
def HALF_FOV_COS (trig : Trig) : ℚ := trig.cos (FOV trig * (1 / 2))

/-- The ECMAScript `Uint8ClampedArray` store conversion: clamp to
`[0, 255]`, then round to the nearest integer, ties to even. -/
def clampByte (q : ℚ) : ℕ :=
  if q ≤ 0 then 0
  else if 255 ≤ q then 255
  else
    let f := ⌊q⌋
    let r := q - f
    if r < 1 / 2 then f.toNat
    else if 1 / 2 < r then f.toNat + 1
    else if f % 2 = 0 then f.toNat else f.toNat + 1

/-- The integers from `a` to `b` inclusive, the index set of a JS
`for (let i = a; i <= b; ++i)` loop. -/
def intRange (a b : ℤ) : List ℤ :=
  (List.range (b + 1 - a).toNat).map (fun (i : ℕ) => a + (i : ℤ))

/-! ## Vector math (src/vector.ts, as used by game.ts)

The `Vector2`/`Vector3` classes are chained in-place mutators; each method
becomes a pure function. -/
/-- Model of `Vector2`: a pair of doubles. -/
@[ext] structure V2 where
  x : ℚ
  y : ℚ
deriving DecidableEq, Repr

/-- Model of `Vector3`: a triple of doubles. -/
@[ext] structure V3 where
  x : ℚ
  y : ℚ
  z : ℚ
deriving DecidableEq, Repr

namespace V2

def add (a b : V2) : V2 := ⟨a.x + b.x, a.y + b.y⟩

def sub (a b : V2) : V2 := ⟨a.x - b.x, a.y - b.y⟩

def scale (a : V2) (s : ℚ) : V2 := ⟨a.x * s, a.y * s⟩

def dot (a b : V2) : ℚ := a.x * b.x + a.y * b.y

def sqrLength (a : V2) : ℚ := a.x * a.x + a.y * a.y

def sqrDistanceTo (a b : V2) : ℚ :=
  (b.x - a.x) * (b.x - a.x) + (b.y - a.y) * (b.y - a.y)

def lerp (a b : V2) (t : ℚ) : V2 :=
  ⟨a.x + (b.x - a.x) * t, a.y + (b.y - a.y) * t⟩

/-- Model of `setPolar(angle, len)`: `(cos angle * len, sin angle * len)`. -/
def setPolar (trig : Trig) (angle len : ℚ) : V2 :=
  ⟨trig.cos angle * len, trig.sin angle * len⟩

/-- Model of `length()` = `Math.sqrt(sqrLength())`; the square root is the abstract
parameter `sq`. -/
def lengthW (sq : ℚ → ℚ) (a : V2) : ℚ := sq a.sqrLength

/-- Model of `distanceTo` via the abstract square root. -/
def distanceToW (sq : ℚ → ℚ) (a b : V2) : ℚ := sq (a.sqrDistanceTo b)

/-- Model of `norm()`: a zero-length vector is returned unchanged. -/
def normW (sq : ℚ → ℚ) (a : V2) : V2 :=
  let l := a.lengthW sq
  if l = 0 then a else a.scale (1 / l)

end V2

namespace V3

def scale (a : V3) (s : ℚ) : V3 := ⟨a.x * s, a.y * s, a.z * s⟩

def sqrLength (a : V3) : ℚ := a.x * a.x + a.y * a.y + a.z * a.z

/-- Model of `copy2(that, z)`: take `x`,`y` from a `Vector2` and a fresh `z`. -/
def copy2 (p : V2) (z : ℚ) : V3 := ⟨p.x, p.y, z⟩

end V3

/-- Model of `RGBA`: four double components. -/
@[ext] structure RGBA where
  r : ℚ
  g : ℚ
  b : ℚ
  a : ℚ
deriving DecidableEq, Repr

/-- An `ImageData`: width, height and a row-major RGBA8 byte array,
modelled as an index function. -/
structure Image where
  width : ℕ
  height : ℕ
  data : ℕ → ℕ

/-! ## Scene (game.ts lines 105–173) -/
/-- The tile sum the spec prescribes (§9: "Abstract as a tagged sum
`{ Empty; Solid(r,g,b,a); Textured(w,h,pixels) }`").  In the source a
tile is `RGBA | ImageData | null`; `null` (padding / empty cell) and
`undefined` (out-of-bounds read) are both mapped to `.empty` because every
call site (`sceneIsWall`, `renderWalls`, `renderMinimap`) treats the two
identically: both fail `instanceof RGBA`, `instanceof ImageData` and the
`c !== null && c !== undefined` wall test. -/
inductive Tile where
  | empty : Tile
  | solid : RGBA → Tile
  | textured : Image → Tile

/-- Is this tile the empty tile? -/
def Tile.isEmpty : Tile → Bool
  | .empty => true
  | _ => false

/-- A `Scene`: row-major tile list with width and height. -/
structure Scene where
  walls : List Tile
  width : ℕ
  height : ℕ

/-- Model of `sceneContains` (game.ts lines 131–132): the raw (unfloored)
coordinates are compared against the grid bounds. -/
def sceneContains (scene : Scene) (p : V2) : Bool :=
  decide (0 ≤ p.x) && decide (p.x < (scene.width : ℚ)) &&
    decide (0 ≤ p.y) && decide (p.y < (scene.height : ℚ))

/-- Model of `sceneGetTile` (game.ts lines 134–137).  Out of bounds the source
returns `undefined`, which every consumer treats as the empty tile (see
`Tile`); in bounds it reads `walls[⌊y⌋*width + ⌊x⌋]` (a missing entry of a
JS array again reads as `undefined`, hence `.empty`). -/
def sceneGetTile (scene : Scene) (p : V2) : Tile :=
  if sceneContains scene p then
    scene.walls.getD (⌊p.y⌋ * (scene.width : ℤ) + ⌊p.x⌋).toNat Tile.empty
  else
    Tile.empty

/-- Model of `SCENE_FLOOR1` (game.ts line 11): `RGBA(0.094, 0.094+0.05, 0.094+0.05, 1)`. -/
def SCENE_FLOOR1 : RGBA := ⟨94/1000, 94/1000 + 5/100, 94/1000 + 5/100, 1⟩

/-- Model of `SCENE_FLOOR2` (game.ts line 12). -/
def SCENE_FLOOR2 : RGBA := ⟨188/1000, 188/1000 + 5/100, 188/1000 + 5/100, 1⟩

/-- Model of `SCENE_CEILING1` (game.ts line 13). -/
def SCENE_CEILING1 : RGBA := ⟨94/1000 + 5/100, 94/1000, 94/1000, 1⟩

/-- Model of `SCENE_CEILING2` (game.ts line 14). -/
def SCENE_CEILING2 : RGBA := ⟨188/1000 + 5/100, 188/1000, 188/1000, 1⟩

/-- Model of `sceneGetFloor` (game.ts lines 139–145).  The JS `%` is the truncating
remainder `Int.tmod`. -/
def sceneGetFloor (p : V2) : Tile :=
  if Int.tmod (⌊p.x⌋ + ⌊p.y⌋) 2 = 0 then Tile.solid SCENE_FLOOR1
  else Tile.solid SCENE_FLOOR2

/-- Model of `sceneGetCeiling` (game.ts lines 147–153). -/
def sceneGetCeiling (p : V2) : Tile :=
  if Int.tmod (⌊p.x⌋ + ⌊p.y⌋) 2 = 0 then Tile.solid SCENE_CEILING1
  else Tile.solid SCENE_CEILING2

/-- Model of `sceneIsWall` (game.ts lines 155–158): a cell is a wall iff its tile is
neither `null` nor `undefined`, i.e. not `.empty`. -/
def sceneIsWall (scene : Scene) (p : V2) : Bool :=
  !(sceneGetTile scene p).isEmpty

/-- Model of `sceneCanRectangleFitHere` (game.ts lines 160–173). -/
def sceneCanRectangleFitHere (scene : Scene) (px py sx sy : ℚ) : Bool :=
  let x1 := ⌊px - sx * (1/2)⌋
  let x2 := ⌊px + sx * (1/2)⌋
  let y1 := ⌊py - sy * (1/2)⌋
  let y2 := ⌊py + sy * (1/2)⌋
  (intRange x1 x2).all fun x =>
    (intRange y1 y2).all fun y =>
      !sceneIsWall scene ⟨(x : ℚ), (y : ℚ)⟩

/-! ## Ray caster (game.ts lines 59–103, 175–185) -/
/-- Model of `snap` (game.ts lines 59–63): biased rounding to the next gridline in
the direction of travel. -/
def snap (x dx : ℚ) : ℚ :=
  if 0 < dx then (⌈x + qsign dx * EPS⌉ : ℤ)
  else if dx < 0 then (⌊x + qsign dx * EPS⌋ : ℤ)
  else x

/-- Model of `hittingCell` (game.ts lines 65–72): the cell on the forward side of
the crossing `p2` of the ray `p1 → p2`. -/
def hittingCell (p1 p2 : V2) : V2 :=
  let dx := p2.x - p1.x
  let dy := p2.y - p1.y
  ⟨(⌊p2.x + qsign dx * EPS⌋ : ℤ), (⌊p2.y + qsign dy * EPS⌋ : ℤ)⟩

/-- The candidate of `rayStep` (game.ts lines 82–86) that snaps `x` to the
next vertical gridline and recomputes `y` from the line
`y = k·x + c` through `p1` and `p2`. -/
def rayStepX (p1 p2 : V2) : V2 :=
  let dx := p2.x - p1.x
  let dy := p2.y - p1.y
  let k := dy / dx
  let c := p1.y - k * p1.x
  ⟨snap p2.x dx, snap p2.x dx * k + c⟩

/-- The candidate of `rayStep` (game.ts lines 88–95) that snaps `y` to the
next horizontal gridline and recomputes `x` from the same line. -/
def rayStepY (p1 p2 : V2) : V2 :=
  let dx := p2.x - p1.x
  let dy := p2.y - p1.y
  let k := dy / dx
  let c := p1.y - k * p1.x
  ⟨(snap p2.y dy - c) / k, snap p2.y dy⟩

/-- Model of `rayStep` (game.ts lines 74–103): the next gridline crossing of the
ray `p1 → p2` strictly beyond `p2`.  For a non-vertical ray the `x`-snap
candidate is computed first and replaced by the `y`-snap candidate (only
computed when `k ≠ 0`) when the latter is strictly nearer to `p2`; a
vertical ray (`dx = 0`) steps `y` only. -/
def rayStep (p1 p2 : V2) : V2 :=
  let dx := p2.x - p1.x
  let dy := p2.y - p1.y
  if dx ≠ 0 then
    if dy / dx ≠ 0 then
      if p2.sqrDistanceTo (rayStepY p1 p2) < p2.sqrDistanceTo (rayStepX p1 p2)
      then rayStepY p1 p2 else rayStepX p1 p2
    else rayStepX p1 p2
  else
    ⟨p2.x, snap p2.y dy⟩

/-- The `while` loop of `castRay` (game.ts lines 175–185), instrumented
with explicit fuel: `none` means the fuel ran out before the loop
finished, `some p2` is the value the source returns.  One unit of fuel is
consumed per executed loop iteration. -/
def castRayAux (scene : Scene) (start : V2) : ℕ → V2 → V2 → Option V2
  | n, p1, p2 =>
    if start.sqrDistanceTo p1 < FAR_CLIPPING_PLANE * FAR_CLIPPING_PLANE then
      if sceneIsWall scene (hittingCell p1 p2) then some p2
      else
        match n with
        | 0 => none
        | n + 1 => castRayAux scene start n p2 (rayStep p1 p2)
    else some p2

/-- Model of `castRay` (game.ts lines 175–185) with a fuel of 100 iterations;
`castRay_terminates` below proves 100 always suffices when `p1 ≠ p2`, so
on those inputs this is exactly the source's loop. -/
def castRay (scene : Scene) (p1 p2 : V2) : Option V2 :=
  castRayAux scene p1 100 p1 p2

/-! ## Player (game.ts lines 187–210, 565–594) -/
/-- Model of `Player` (game.ts lines 187–197). -/
structure Player where
  position : V2
  fovLeft : V2
  fovRight : V2
  controlVelocity : V2
  direction : ℚ
  movingForward : Bool
  movingBackward : Bool
  turningLeft : Bool
  turningRight : Bool

/-- Model of `updatePlayer` (game.ts lines 565–594). -/
def updatePlayer (trig : Trig) (player : Player) (scene : Scene)
    (deltaTime : ℚ) : Player :=
  let cv0 : V2 := ⟨0, 0⟩
  let cv1 := if player.movingForward then
      cv0.add (V2.setPolar trig player.direction PLAYER_SPEED) else cv0
  let cv2 := if player.movingBackward then
      cv1.sub (V2.setPolar trig player.direction PLAYER_SPEED) else cv1
  let av0 : ℚ := 0
  let av1 := if player.turningLeft then av0 - trig.pi * (3/4) else av0
  let av2 := if player.turningRight then av1 + trig.pi * (3/4) else av1
  let direction := player.direction + av2 * deltaTime
  let nx := player.position.x + cv2.x * deltaTime
  let px := if sceneCanRectangleFitHere scene nx player.position.y
      MINIMAP_PLAYER_SIZE MINIMAP_PLAYER_SIZE then nx else player.position.x
  let ny := player.position.y + cv2.y * deltaTime
  let py := if sceneCanRectangleFitHere scene px ny
      MINIMAP_PLAYER_SIZE MINIMAP_PLAYER_SIZE then ny else player.position.y
  let halfFov := FOV trig * (1/2)
  let fovLen := NEAR_CLIPPING_PLANE / trig.cos halfFov
  { player with
    position := ⟨px, py⟩
    direction := direction
    controlVelocity := cv2
    fovLeft := (V2.setPolar trig (direction - halfFov) fovLen).add ⟨px, py⟩
    fovRight := (V2.setPolar trig (direction + halfFov) fovLen).add ⟨px, py⟩ }

/-! ## Player collision invariant: claim C1 -/
/-- The grid cell `(cx, cy)` — the half-open unit square
`[cx, cx+1) × [cy, cy+1)` (a point `p` lies in cell `(⌊p.x⌋, ⌊p.y⌋)`) —
meets the closed collision box
`[px - 1/4, px + 1/4] × [py - 1/4, py + 1/4]` of a player centred at
`(px, py)`. -/
def cellIntersectsBox (px py : ℚ) (cx cy : ℤ) : Prop :=
  (cx : ℚ) ≤ px + 1/4 ∧ px - 1/4 < (cx : ℚ) + 1 ∧
    (cy : ℚ) ≤ py + 1/4 ∧ py - 1/4 < (cy : ℚ) + 1

/-- No grid cell intersected by the player's `0.5 × 0.5` collision box
centred at `(px, py)` is a wall. -/
def boxClearOfWalls (scene : Scene) (px py : ℚ) : Prop :=
  ∀ cx cy : ℤ, cellIntersectsBox px py cx cy →
    sceneIsWall scene ⟨(cx : ℚ), (cy : ℚ)⟩ = false

/-! ## Wall shading factor: claim C2

`renderWalls` (game.ts lines 298–348) computes, for a column whose ray
struck a wall cell, a shading factor and multiplies the written RGB
channels by it.  The two branches compute it differently. -/
/-- The shading factor of the `cell instanceof RGBA` branch
(game.ts line 308): `1/zBuffer[x]*2`, with no clamp. -/
def renderWallsShadowSolid (z : ℚ) : ℚ := 1 / z * 2

/-- The shading factor of the `cell instanceof ImageData` branch
(game.ts line 337): `Math.min(1/zBuffer[x]*2, 1)`. -/
def renderWallsShadowTextured (z : ℚ) : ℚ := min (1 / z * 2) 1

/-- The shading factor `renderWalls` applies for a struck cell at
perpendicular depth `z`; `none` for an empty cell (no strip is drawn). -/
def renderWallsShadow : Tile → ℚ → Option ℚ
  | Tile.solid _, z => some (renderWallsShadowSolid z)
  | Tile.textured _, z => some (renderWallsShadowTextured z)
  | Tile.empty, _ => none

/-! ## Bomb throwing: claim C3 -/
/-- Model of `Bomb` (game.ts lines 533–537). -/
structure Bomb where
  position : V3
  velocity : V3
  lifetime : ℚ
deriving DecidableEq, Repr

/-- Model of `throwBomb` (game.ts lines 551–563): find the first inactive bomb
(`lifetime <= 0`), reinitialise it, `break`; if none, do nothing. -/
def throwBomb (trig : Trig) (player : Player) : List Bomb → List Bomb
  | [] => []
  | bomb :: rest =>
    if bomb.lifetime ≤ 0 then
      { position := V3.copy2 player.position (6/10),
        velocity := V3.scale ⟨trig.cos player.direction,
          trig.sin player.direction, 1/2⟩ BOMB_THROW_VELOCITY,
        lifetime := BOMB_LIFETIME } :: rest
    else bomb :: throwBomb trig player rest

/-- A trig interpretation agreeing with the real `Math.cos`/`Math.sin` at
angle `0`, used for concrete inputs with `direction = 0`. -/
def trig0 : Trig := ⟨fun _ => 1, fun _ => 0, 314/100⟩

/-- A player at the origin facing east (`direction = 0`). -/
def player0 : Player :=
  ⟨⟨0, 0⟩, ⟨0, 0⟩, ⟨0, 0⟩, ⟨0, 0⟩, 0, false, false, false, false⟩

/-- The per-coordinate progress gauge: for travel direction sign `s`, the
number of gridlines left behind (floors for rightward travel, negated
ceilings for leftward, constant when the coordinate does not move). -/
def psi (s x : ℚ) : ℤ :=
  if 0 < s then ⌊x⌋ else if s < 0 then -⌈x⌉ else 0

/-- The total progress gauge of a ray point for direction signs `sx, sy`. -/
def mu (sx sy : ℚ) (p : V2) : ℤ := psi sx p.x + psi sy p.y

/-! ## Sprite pipeline (game.ts lines 386–523) -/
/-- A sprite's `image: ImageData | RGBA`. -/
inductive SpriteImage where
  | solid : RGBA → SpriteImage
  | textured : Image → SpriteImage

/-- Model of `Sprite` (game.ts lines 412–421). -/
structure Sprite where
  image : SpriteImage
  position : V2
  z : ℚ
  scale : ℚ
  dist : ℚ
  pdist : ℚ
  t : ℚ

/-- Model of `Display` (game.ts lines 386–391): the back framebuffer
(`backImageData`: width, height and RGBA8 bytes, modelled as an index
function over flat byte offsets) and the per-column z-buffer.  The canvas
contexts are host-side and carry no engine state. -/
structure Display where
  width : ℕ
  height : ℕ
  data : ℕ → ℕ
  zBuffer : ℕ → ℚ

/-- Model of `maxSpriteSize` (game.ts line 456). -/
def spriteMaxSize (H : ℕ) (s : Sprite) : ℚ := (H : ℚ) / s.pdist

/-- Model of `spriteSize` (game.ts line 457). -/
def spriteSizeQ (H : ℕ) (s : Sprite) : ℚ := spriteMaxSize H s * s.scale

/-- Model of `x1` (game.ts line 458). -/
def spriteX1 (W H : ℕ) (s : Sprite) : ℤ :=
  ⌊(W : ℚ) * s.t - spriteSizeQ H s * (1/2)⌋

/-- Model of `x2` (game.ts line 459). -/
def spriteX2 (W H : ℕ) (s : Sprite) : ℤ :=
  ⌊(spriteX1 W H s : ℚ) + spriteSizeQ H s - 1⌋

/-- Model of `bx1` (game.ts line 460). -/
def spriteBX1 (W H : ℕ) (s : Sprite) : ℤ := max 0 (spriteX1 W H s)

/-- Model of `bx2` (game.ts line 461). -/
def spriteBX2 (W H : ℕ) (s : Sprite) : ℤ :=
  min ((W : ℤ) - 1) (spriteX2 W H s)

/-- Model of `y1` (game.ts line 462). -/
def spriteY1 (H : ℕ) (s : Sprite) : ℤ :=
  ⌊(H : ℚ) * (1/2) + spriteMaxSize H s * (1/2) - spriteMaxSize H s * s.z⌋

/-- Model of `y2` (game.ts line 463). -/
def spriteY2 (H : ℕ) (s : Sprite) : ℤ :=
  ⌊(spriteY1 H s : ℚ) + spriteSizeQ H s - 1⌋

/-- Model of `by1` (game.ts line 464). -/
def spriteBY1 (H : ℕ) (s : Sprite) : ℤ := max 0 (spriteY1 H s)

/-- Model of `by2` (game.ts line 465). -/
def spriteBY2 (H : ℕ) (s : Sprite) : ℤ :=
  min ((H : ℤ) - 1) (spriteY2 H s)

/-- One alpha-blended byte store
`dest[p] = dest[p]*(1-alpha) + src*alpha` into a `Uint8ClampedArray`. -/
def blend1 (data : ℕ → ℕ) (p : ℕ) (src alpha : ℚ) : ℕ → ℕ :=
  Function.update data p (clampByte ((data p : ℚ) * (1 - alpha) + src * alpha))

/-- The body of the `for (const sprite of sprites)` loop of
`renderSprites` (game.ts lines 453–499): rasterise one sprite into the
back framebuffer, skipping every column `x` whose z-buffer entry does not
satisfy `sprite.pdist < zBuffer[x]`, and alpha-blending the RGB bytes of
the non-skipped columns. -/
def drawSprite (d : Display) (s : Sprite) : Display :=
  let xs := List.range' (spriteBX1 d.width d.height s).toNat
    (spriteBX2 d.width d.height s + 1 - spriteBX1 d.width d.height s).toNat
  let ys := List.range' (spriteBY1 d.height s).toNat
    (spriteBY2 d.height s + 1 - spriteBY1 d.height s).toNat
  match s.image with
  | SpriteImage.textured img =>
    { d with data := xs.foldl (fun data (x : ℕ) =>
        if s.pdist < d.zBuffer x then
          ys.foldl (fun data2 (y : ℕ) =>
            let tx : ℤ :=
              ⌊((x : ℚ) - spriteX1 d.width d.height s) / spriteSizeQ d.height s
                * img.width⌋
            let ty : ℤ :=
              ⌊((y : ℚ) - spriteY1 d.height s) / spriteSizeQ d.height s
                * img.height⌋
            let srcP : ℤ := (ty * (img.width : ℤ) + tx) * 4
            let destP : ℕ := (y * d.width + x) * 4
            let alpha : ℚ := (img.data (srcP + 3).toNat : ℚ) / 255
            blend1 (blend1 (blend1 data2 destP (img.data srcP.toNat : ℚ) alpha)
              (destP + 1) (img.data (srcP + 1).toNat : ℚ) alpha)
              (destP + 2) (img.data (srcP + 2).toNat : ℚ) alpha) data
        else data) d.data }
  | SpriteImage.solid c =>
    { d with data := xs.foldl (fun data (x : ℕ) =>
        if s.pdist < d.zBuffer x then
          ys.foldl (fun data2 (y : ℕ) =>
            let destP : ℕ := (y * d.width + x) * 4
            blend1 (blend1 (blend1 data2 destP (c.r * 255) c.a)
              (destP + 1) (c.g * 255) c.a)
              (destP + 2) (c.b * 255) c.a) data
        else data) d.data }

/-- Model of `renderSprites` (game.ts lines 452–500): draw the visible sprites in
list order. -/
def renderSprites (d : Display) (sprites : List Sprite) : Display :=
  sprites.foldl drawSprite d

/-- A concrete display for the C5 witness: 4×4 framebuffer, every byte 7,
every z-buffer entry 1. -/
def display0 : Display := ⟨4, 4, fun _ => 7, fun _ => 1⟩

/-- A concrete solid sprite for the C5 witness: `pdist = 2 ≥ zBuffer`. -/
def sprite0 : Sprite := ⟨SpriteImage.solid ⟨1, 0, 0, 1⟩, ⟨0, 0⟩, 1/2, 1, 0, 2, 1/2⟩

/-! ## Sprite culling and depth sort: claim C6 -/
/-- Model of `SpritePool` (game.ts lines 39–48): a growable array with a length
cursor, reset to 0 each frame. -/
structure SpritePool where
  items : List Sprite
  length : ℕ

/-- Model of `pushSprite` (game.ts lines 502–523): append a fresh record or reuse
the slot at the cursor; `dist`, `pdist` and `t` are zeroed. -/
def pushSprite (pool : SpritePool) (image : SpriteImage) (position : V2)
    (z scale : ℚ) : SpritePool :=
  if pool.items.length ≤ pool.length then
    { items := pool.items ++ [⟨image, position, z, scale, 0, 0, 0⟩],
      length := pool.length + 1 }
  else
    { items := pool.items.set pool.length ⟨image, position, z, scale, 0, 0, 0⟩,
      length := pool.length + 1 }

/-- The culling/projection fold of `cullSprites` (game.ts lines 427–447):
the visible-sprite list built from the pool in order.  `sq` is the
abstract `Math.sqrt`. -/
def cullSpritesVisible (trig : Trig) (sq : ℚ → ℚ) (player : Player)
    (pool : SpritePool) : List Sprite :=
  let dir := V2.setPolar trig player.direction 1
  (pool.items.take pool.length).foldl (fun acc sprite =>
    let sp := sprite.position.sub player.position
    let spl := sp.lengthW sq
    if spl ≤ NEAR_CLIPPING_PLANE then acc
    else if FAR_CLIPPING_PLANE ≤ spl then acc
    else
      let dot := sp.dot dir / spl
      if ¬(HALF_FOV_COS trig ≤ dot) then acc
      else
        let dist := NEAR_CLIPPING_PLANE / dot
        let spp := ((sp.normW sq).scale dist).add player.position
        let t := player.fovLeft.distanceToW sq spp /
          player.fovLeft.distanceToW sq player.fovRight
        let pdist := (sprite.position.sub player.position).dot dir
        if pdist < NEAR_CLIPPING_PLANE then acc
        else if FAR_CLIPPING_PLANE ≤ pdist then acc
        else acc ++ [{ sprite with dist := dist, t := t, pdist := pdist }]) []

/-- Model of `cullSprites` (game.ts lines 423–450): build the visible list, then
`visibleSprites.sort((a, b) => b.pdist - a.pdist)` — a stable sort whose
result is ordered by the comparator, i.e. `a` before `b` iff
`b.pdist ≤ a.pdist`.  `renderSprites` then draws this list in order. -/
def cullSprites (trig : Trig) (sq : ℚ → ℚ) (player : Player)
    (pool : SpritePool) : List Sprite :=
  (cullSpritesVisible trig sq player pool).mergeSort
    (fun a b => decide (b.pdist ≤ a.pdist))

/-- A trig interpretation for the C6 counterexample that matches the real
functions at every argument used: `cos 0 = 1`, `sin _ = 0` (only evaluated
at 0), and at the half-FOV angle `(314/100)/4` the value `0.7071`. -/
def trigC : Trig := ⟨fun q => if q = 0 then 1 else 7071/10000, fun _ => 0, 314/100⟩

/-- A square root for the C6 counterexample, exact at every argument used:
`√9 = 3`, `√(1/100) = 1/10`, `√0 = 0`. -/
def sqC : ℚ → ℚ := fun q => if q = 9 then 3 else if q = 1/100 then 1/10 else 0

/-- A pool of two identical sprites 3 units in front of the player. -/
def sprC : Sprite := ⟨SpriteImage.solid ⟨1, 0, 0, 1⟩, ⟨3, 0⟩, 0, 1, 0, 0, 0⟩

/-- The two-sprite pool for the C6 counterexample. -/
def poolC : SpritePool := ⟨[sprC, sprC], 2⟩

/-! ## Items, particles, bombs and the per-frame world update: claim C8 -/
/-- Model of `PARTICLE_COLOR` (game.ts line 31). -/
def PARTICLE_COLOR : RGBA := ⟨1, 1/2, 15/100, 1⟩

/-- Model of `ItemKind` (game.ts line 525). -/
inductive ItemKind where
  | key : ItemKind
  | bomb : ItemKind
deriving DecidableEq, Repr

/-- Model of `Item` (game.ts lines 527–531). -/
structure Item where
  kind : ItemKind
  alive : Bool
  position : V2
deriving DecidableEq, Repr

/-- Model of `Particle` (game.ts lines 618–622). -/
structure Particle where
  position : V3
  velocity : V3
  lifetime : ℚ
deriving DecidableEq, Repr

/-- The image assets the update loops reference (`Assets`, game.ts lines
742–748).  The `HTMLAudioElement` members are host-side: `playSound` sets
volume and playback position on the host object and carries no engine
state, so the omitted sound calls have no modelled effect. -/
structure Assets where
  keyImageData : Image
  bombImageData : Image

/-- Model of `spriteOfItemKind` (game.ts lines 596–601). -/
def spriteOfItemKind (itemKind : ItemKind) (assets : Assets) : Image :=
  match itemKind with
  | ItemKind.key => assets.keyImageData
  | ItemKind.bomb => assets.bombImageData

/-- The stream of `Math.random()` values, with a cursor: each call
consumes the next value. -/
structure Rng where
  vals : ℕ → ℚ
  idx : ℕ

/-- One `Math.random()` call. -/
def rngNext (r : Rng) : ℚ × Rng := (r.vals r.idx, ⟨r.vals, r.idx + 1⟩)

/-- Model of `emitParticle` (game.ts lines 671–684): revive the first dead
particle with a random planar angle, vertical speed and overall scale
(three `Math.random()` draws, in source order). -/
def emitParticle (trig : Trig) (rng : Rng) (source : V3) :
    List Particle → List Particle × Rng
  | [] => ([], rng)
  | particle :: rest =>
    if particle.lifetime ≤ 0 then
      let r1 := rngNext rng
      let angle := r1.1 * 2 * trig.pi
      let r2 := rngNext r1.2
      let r3 := rngNext r2.2
      (({ position := source,
          velocity := (⟨trig.cos angle, trig.sin angle,
            r2.1 * (1/2) + 1/2⟩ : V3).scale (PARTICLE_MAX_SPEED * r3.1),
          lifetime := PARTICLE_LIFETIME } : Particle) :: rest, r3.2)
    else
      let rec' := emitParticle trig rng source rest
      (particle :: rec'.1, rec'.2)

/-- The body of the `for (const item of items)` loop of `updateItems`
(game.ts lines 603–616): pickup when the player is within
`PLAYER_RADIUS`, then push a bobbing sprite for the still-alive item.
(The pickup sound is host-side.) -/
def updateItemStep (trig : Trig) (time : ℚ) (player : Player)
    (assets : Assets) (acc : SpritePool × List Item) (item : Item) :
    SpritePool × List Item :=
  let alive1 := if item.alive = true ∧
      player.position.sqrDistanceTo item.position <
        PLAYER_RADIUS * PLAYER_RADIUS then false else item.alive
  let pool1 := if alive1 = true then
      pushSprite acc.1
        (SpriteImage.textured (spriteOfItemKind item.kind assets))
        item.position
        (1/4 + ITEM_AMP - ITEM_AMP * trig.sin (ITEM_FREQ * trig.pi * time +
          item.position.x + item.position.y)) (1/4)
    else acc.1
  (pool1, acc.2 ++ [{ item with alive := alive1 }])

/-- Model of `updateItems` (game.ts lines 603–616). -/
def updateItems (trig : Trig) (pool : SpritePool) (time : ℚ)
    (player : Player) (items : List Item) (assets : Assets) :
    SpritePool × List Item :=
  items.foldl (updateItemStep trig time player assets) (pool, [])

/-- The body of the `for (const particle of particles)` loop of
`updateParticles` (game.ts lines 636–669): gravity, horizontal step with
axis-flip wall bounce and damping, vertical step with floor/ceiling
bounce, then a sprite push for the still-alive particle. -/
def updateParticleStep (deltaTime : ℚ) (scene : Scene)
    (acc : SpritePool × List Particle) (particle : Particle) :
    SpritePool × List Particle :=
  if 0 < particle.lifetime then
    let lifetime := particle.lifetime - deltaTime
    let vz := particle.velocity.z - PARTICLE_GRAVITY * deltaTime
    let nx := particle.position.x + particle.velocity.x * deltaTime
    let ny := particle.position.y + particle.velocity.y * deltaTime
    let hitWall := sceneIsWall scene ⟨nx, ny⟩
    let v1 : V3 :=
      if hitWall = true then
        let dxc := (⌊particle.position.x⌋ - ⌊nx⌋).natAbs
        let dyc := (⌊particle.position.y⌋ - ⌊ny⌋).natAbs
        (⟨if 0 < dxc then -particle.velocity.x else particle.velocity.x,
          if 0 < dyc then -particle.velocity.y else particle.velocity.y,
          vz⟩ : V3).scale PARTICLE_DAMP
      else ⟨particle.velocity.x, particle.velocity.y, vz⟩
    let p1 : V3 := if hitWall = true then particle.position
      else ⟨nx, ny, particle.position.z⟩
    let nz := p1.z + v1.z * deltaTime
    let v2 := if nz < PARTICLE_SCALE ∨ 1 < nz then
        (⟨v1.x, v1.y, -v1.z⟩ : V3).scale PARTICLE_DAMP else v1
    let p2 : V3 := if nz < PARTICLE_SCALE ∨ 1 < nz then p1
      else ⟨p1.x, p1.y, nz⟩
    let pool1 := if 0 < lifetime then
        pushSprite acc.1 (SpriteImage.solid PARTICLE_COLOR) ⟨p2.x, p2.y⟩
          p2.z PARTICLE_SCALE
      else acc.1
    (pool1, acc.2 ++ [⟨p2, v2, lifetime⟩])
  else (acc.1, acc.2 ++ [particle])

/-- Model of `updateParticles` (game.ts lines 636–669). -/
def updateParticles (pool : SpritePool) (deltaTime : ℚ) (scene : Scene)
    (particles : List Particle) : SpritePool × List Particle :=
  particles.foldl (updateParticleStep deltaTime scene) (pool, [])

/-- The body of the `for (const bomb of bombs)` loop of `updateBombs`
(game.ts lines 696–740): same bounce logic as particles with the bomb
constants; on expiry this frame, emit `BOMB_PARTICLE_COUNT` particles
from the bomb's position, otherwise push the bomb sprite.  (The ricochet
and blast sounds are host-side.) -/
def updateBombStep (trig : Trig) (player : Player) (scene : Scene)
    (deltaTime : ℚ) (assets : Assets)
    (acc : SpritePool × List Bomb × List Particle × Rng) (bomb : Bomb) :
    SpritePool × List Bomb × List Particle × Rng :=
  if 0 < bomb.lifetime then
    let lifetime := bomb.lifetime - deltaTime
    let vz := bomb.velocity.z - BOMB_GRAVITY * deltaTime
    let nx := bomb.position.x + bomb.velocity.x * deltaTime
    let ny := bomb.position.y + bomb.velocity.y * deltaTime
    let hitWall := sceneIsWall scene ⟨nx, ny⟩
    let v1 : V3 :=
      if hitWall = true then
        let dxc := (⌊bomb.position.x⌋ - ⌊nx⌋).natAbs
        let dyc := (⌊bomb.position.y⌋ - ⌊ny⌋).natAbs
        (⟨if 0 < dxc then -bomb.velocity.x else bomb.velocity.x,
          if 0 < dyc then -bomb.velocity.y else bomb.velocity.y,
          vz⟩ : V3).scale BOMB_DAMP
      else ⟨bomb.velocity.x, bomb.velocity.y, vz⟩
    let p1 : V3 := if hitWall = true then bomb.position
      else ⟨nx, ny, bomb.position.z⟩
    let nz := p1.z + v1.z * deltaTime
    let v2 := if nz < BOMB_SCALE ∨ 1 < nz then
        (⟨v1.x, v1.y, -v1.z⟩ : V3).scale BOMB_DAMP else v1
    let p2 : V3 := if nz < BOMB_SCALE ∨ 1 < nz then p1 else ⟨p1.x, p1.y, nz⟩
    if lifetime ≤ 0 then
      let emitted := (List.range BOMB_PARTICLE_COUNT).foldl
        (fun (pr : List Particle × Rng) _ =>
          emitParticle trig pr.2 p2 pr.1) (acc.2.2.1, acc.2.2.2)
      (acc.1, acc.2.1 ++ [⟨p2, v2, lifetime⟩], emitted.1, emitted.2)
    else
      (pushSprite acc.1 (SpriteImage.textured assets.bombImageData)
        ⟨p2.x, p2.y⟩ p2.z BOMB_SCALE,
       acc.2.1 ++ [⟨p2, v2, lifetime⟩], acc.2.2.1, acc.2.2.2)
  else (acc.1, acc.2.1 ++ [bomb], acc.2.2.1, acc.2.2.2)

/-- Model of `updateBombs` (game.ts lines 696–740). -/
def updateBombs (trig : Trig) (rng : Rng) (pool : SpritePool)
    (player : Player) (bombs : List Bomb) (particles : List Particle)
    (scene : Scene) (deltaTime : ℚ) (assets : Assets) :
    SpritePool × List Bomb × List Particle × Rng :=
  bombs.foldl (updateBombStep trig player scene deltaTime assets)
    (pool, [], particles, rng)

/-- Model of `Game` (game.ts lines 750–759).  The `visibleSprites` scratch list is
render-side output of `cullSprites` and holds no simulation state. -/
structure Game where
  player : Player
  scene : Scene
  items : List Item
  bombs : List Bomb
  particles : List Particle
  spritePool : SpritePool
  assets : Assets

/-- The world-state-update prefix of `renderGame` (game.ts lines
851–867): `spritePoolReset`, `updatePlayer`, `updateItems`,
`updateBombs`, `updateParticles`, in source order.  The subsequent calls
(`renderFloorAndCeiling`, `renderWalls`, `cullSprites`, `renderSprites`,
the blit, minimap and FPS overlay) only read these fields — they write
the display and the visible-sprite scratch list — so the world state
after `renderGame` is exactly the state after this function. -/
def updateWorldState (trig : Trig) (rng : Rng) (game : Game)
    (deltaTime time : ℚ) : Game × Rng :=
  let pool0 : SpritePool := { game.spritePool with length := 0 }
  let player := updatePlayer trig game.player game.scene deltaTime
  let ui := updateItems trig pool0 time player game.items game.assets
  let ub := updateBombs trig rng ui.1 player game.bombs game.particles
    game.scene deltaTime game.assets
  let up := updateParticles ub.1 deltaTime game.scene ub.2.2.1
  ({ game with
      player := player
      items := ui.2
      bombs := ub.2.1
      particles := up.2
      spritePool := up.1 }, ub.2.2.2)

/-- Repeated zero-delta frames: iterate the world-update prefix of
`renderGame` with `deltaTime = 0`, threading the random stream. -/
def iterateWorld (trig : Trig) (time : ℚ) : ℕ → Game × Rng → Game × Rng
  | 0, gr => gr
  | n + 1, gr => iterateWorld trig time n (updateWorldState trig gr.2 gr.1 0 time)

/-- An empty scene: every lookup is out of bounds, hence never a wall. -/
def sceneEmpty : Scene := ⟨[], 0, 0⟩

/-- Concrete assets (1×1 transparent images) for the C8 inputs. -/
def assets0 : Assets := ⟨⟨1, 1, fun _ => 0⟩, ⟨1, 1, fun _ => 0⟩⟩

/-- A concrete random stream. -/
def rng0 : Rng := ⟨fun _ => 0, 0⟩

/-- A world with one alive item within pickup range of the player. -/
def game0 : Game :=
  ⟨player0, sceneEmpty, [⟨ItemKind.key, true, ⟨1/4, 0⟩⟩], [], [], ⟨[], 0⟩,
    assets0⟩

/-- A world satisfying the amended provisos: an item out of range, an
active bomb and an active particle at legal positions in the empty
scene. -/
def game1 : Game :=
  ⟨player0, sceneEmpty, [⟨ItemKind.key, true, ⟨3, 0⟩⟩],
    [⟨⟨0, 0, 1/2⟩, ⟨1, 0, 0⟩, 1⟩], [⟨⟨0, 0, 1/2⟩, ⟨0, 0, 0⟩, 1/2⟩],
    ⟨[], 0⟩, assets0⟩

/-! ## Theorems

The helper lemmas and the claim theorems about the embedding above. -/

theorem mem_intRange {a b c : ℤ} : c ∈ intRange a b ↔ a ≤ c ∧ c ≤ b := by
  unfold intRange
  rw [List.mem_map]
  constructor
  · rintro ⟨i, hi, hc⟩
    rw [List.mem_range] at hi
    omega
  · rintro ⟨h₁, h₂⟩
    refine ⟨(c - a).toNat, ?_, ?_⟩
    · rw [List.mem_range]
      omega
    · omega

/-! ## Checkerboard floor and ceiling: claim C4 -/
theorem tmod_two_eq_zero_iff (n : ℤ) : Int.tmod n 2 = 0 ↔ n % 2 = 0 := by
  rw [← Int.dvd_iff_tmod_eq_zero, Int.dvd_iff_emod_eq_zero]

theorem checker_select_iff (t1 t2 : RGBA) (hne : t1 ≠ t2) (n : ℤ) :
    ((if Int.tmod n 2 = 0 then Tile.solid t1 else Tile.solid t2) = Tile.solid t1
        ↔ n % 2 = 0) ∧
    ((if Int.tmod n 2 = 0 then Tile.solid t1 else Tile.solid t2) = Tile.solid t2
        ↔ ¬n % 2 = 0) := by
  rw [← tmod_two_eq_zero_iff]
  by_cases h : Int.tmod n 2 = 0
  · simp [h, Tile.solid.injEq, hne]
  · simp [h, Tile.solid.injEq, Ne.symm hne]

theorem sceneGetFloor_eq (p : V2) :
    sceneGetFloor p = if Int.tmod (⌊p.x⌋ + ⌊p.y⌋) 2 = 0 then Tile.solid SCENE_FLOOR1
      else Tile.solid SCENE_FLOOR2 := rfl

theorem sceneGetCeiling_eq (p : V2) :
    sceneGetCeiling p = if Int.tmod (⌊p.x⌋ + ⌊p.y⌋) 2 = 0 then Tile.solid SCENE_CEILING1
      else Tile.solid SCENE_CEILING2 := rfl

/-- C4: for every point, `sceneGetFloor` returns `FLOOR1 = (0.094, 0.144,
0.144, 1)` iff `⌊x⌋ + ⌊y⌋` is even (in the mathematical `mod 2 = 0` sense,
so also at negative coordinates) and `FLOOR2 = (0.188, 0.238, 0.238, 1)`
otherwise, and `sceneGetCeiling` obeys the same parity rule with
`CEILING1 = (0.144, 0.094, 0.094, 1)` and `CEILING2 = (0.238, 0.188,
0.188, 1)`. -/
theorem floor_ceiling_checkerboard (p : V2) :
    (sceneGetFloor p = Tile.solid SCENE_FLOOR1 ↔ (⌊p.x⌋ + ⌊p.y⌋) % 2 = 0) ∧
    (sceneGetFloor p = Tile.solid SCENE_FLOOR2 ↔ ¬(⌊p.x⌋ + ⌊p.y⌋) % 2 = 0) ∧
    (sceneGetCeiling p = Tile.solid SCENE_CEILING1 ↔ (⌊p.x⌋ + ⌊p.y⌋) % 2 = 0) ∧
    (sceneGetCeiling p = Tile.solid SCENE_CEILING2 ↔ ¬(⌊p.x⌋ + ⌊p.y⌋) % 2 = 0) ∧
    SCENE_FLOOR1 = ⟨94/1000, 144/1000, 144/1000, 1⟩ ∧
    SCENE_FLOOR2 = ⟨188/1000, 238/1000, 238/1000, 1⟩ ∧
    SCENE_CEILING1 = ⟨144/1000, 94/1000, 94/1000, 1⟩ ∧
    SCENE_CEILING2 = ⟨238/1000, 188/1000, 188/1000, 1⟩ := by
  rw [sceneGetFloor_eq, sceneGetCeiling_eq]
  have hf : SCENE_FLOOR1 ≠ SCENE_FLOOR2 := by
    simp only [SCENE_FLOOR1, SCENE_FLOOR2, ne_eq, RGBA.mk.injEq, not_and]
    intro h
    norm_num at h
  have hc : SCENE_CEILING1 ≠ SCENE_CEILING2 := by
    simp only [SCENE_CEILING1, SCENE_CEILING2, ne_eq, RGBA.mk.injEq, not_and]
    intro h
    norm_num at h
  refine ⟨(checker_select_iff _ _ hf _).1, (checker_select_iff _ _ hf _).2,
    (checker_select_iff _ _ hc _).1, (checker_select_iff _ _ hc _).2,
    ?_, ?_, ?_, ?_⟩ <;>
    · simp only [SCENE_FLOOR1, SCENE_FLOOR2, SCENE_CEILING1, SCENE_CEILING2,
        RGBA.mk.injEq]
      norm_num

/-! ## Out-of-bounds lookups: claim C9 -/
theorem sceneContains_false_of_oob (scene : Scene) (p : V2)
    (h : ⌊p.x⌋ < 0 ∨ (scene.width : ℤ) ≤ ⌊p.x⌋ ∨
      ⌊p.y⌋ < 0 ∨ (scene.height : ℤ) ≤ ⌊p.y⌋) :
    sceneContains scene p = false := by
  unfold sceneContains
  simp only [Bool.and_eq_false_iff, decide_eq_false_iff_not, not_le, not_lt]
  rcases h with h | h | h | h
  · have : p.x < 0 := by
      have := Int.floor_lt.mp (show ⌊p.x⌋ < (0 : ℤ) from h)
      simpa using this
    left; left; left; linarith
  · have : (scene.width : ℚ) ≤ p.x := by
      have := Int.le_floor.mp h
      simpa using this
    left; left; right; linarith
  · have : p.y < 0 := by
      have := Int.floor_lt.mp (show ⌊p.y⌋ < (0 : ℤ) from h)
      simpa using this
    left; right; linarith
  · have : (scene.height : ℚ) ≤ p.y := by
      have := Int.le_floor.mp h
      simpa using this
    right; linarith

/-- C9: for every point whose floored coordinates are outside the grid
(`⌊x⌋ < 0`, `⌊x⌋ ≥ width`, `⌊y⌋ < 0` or `⌊y⌋ ≥ height`), `sceneGetTile`
returns the empty tile and `sceneIsWall` returns `false`; the lookup is a
total function, so it cannot throw. -/
theorem sceneGetTile_oob_empty (scene : Scene) (p : V2)
    (h : ⌊p.x⌋ < 0 ∨ (scene.width : ℤ) ≤ ⌊p.x⌋ ∨
      ⌊p.y⌋ < 0 ∨ (scene.height : ℤ) ≤ ⌊p.y⌋) :
    sceneGetTile scene p = Tile.empty ∧ sceneIsWall scene p = false := by
  have hc := sceneContains_false_of_oob scene p h
  constructor
  · unfold sceneGetTile
    rw [hc]
    simp
  · unfold sceneIsWall sceneGetTile
    rw [hc]
    simp [Tile.isEmpty]

/-- Witness for C9 at a concrete scene (one solid wall cell) and the
concrete out-of-bounds point `(-1, 0)`. -/
theorem sceneGetTile_oob_empty_witness :
    sceneGetTile ⟨[Tile.solid ⟨1, 1, 1, 1⟩], 1, 1⟩ ⟨-1, 0⟩ = Tile.empty ∧
      sceneIsWall ⟨[Tile.solid ⟨1, 1, 1, 1⟩], 1, 1⟩ ⟨-1, 0⟩ = false :=
  sceneGetTile_oob_empty _ _ (Or.inl (by decide))

theorem floor_le_iff_lt_add_one {a : ℚ} {c : ℤ} : ⌊a⌋ ≤ c ↔ a < (c : ℚ) + 1 := by
  constructor
  · intro h
    calc a < (⌊a⌋ : ℚ) + 1 := Int.lt_floor_add_one a
    _ ≤ (c : ℚ) + 1 := by
      have : ((⌊a⌋ : ℤ) : ℚ) ≤ ((c : ℤ) : ℚ) := by exact_mod_cast h
      linarith
  · intro h
    have : ⌊a⌋ < c + 1 := Int.floor_lt.mpr (by push_cast; exact h)
    omega

/-- The cells scanned by `sceneCanRectangleFitHere` for a `0.5 × 0.5` box
are exactly the cells intersecting the box, so the check succeeds iff the
box is clear of walls. -/
theorem canRectangleFit_iff_boxClear (scene : Scene) (px py : ℚ) :
    sceneCanRectangleFitHere scene px py (1/2) (1/2) = true ↔
      boxClearOfWalls scene px py := by
  unfold sceneCanRectangleFitHere boxClearOfWalls
  simp only [List.all_eq_true, mem_intRange, Bool.not_eq_true']
  constructor
  · intro h cx cy hcell
    obtain ⟨h1, h2, h3, h4⟩ := hcell
    refine h cx ⟨?_, ?_⟩ cy ⟨?_, ?_⟩
    · exact floor_le_iff_lt_add_one.mpr (by norm_num; linarith)
    · exact Int.le_floor.mpr (by norm_num; linarith)
    · exact floor_le_iff_lt_add_one.mpr (by norm_num; linarith)
    · exact Int.le_floor.mpr (by norm_num; linarith)
  · intro h cx hcx cy hcy
    obtain ⟨h1, h2⟩ := hcx
    obtain ⟨h3, h4⟩ := hcy
    refine h cx cy ⟨?_, ?_, ?_, ?_⟩
    · have := Int.le_floor.mp h2
      norm_num at this ⊢
      linarith
    · have := floor_le_iff_lt_add_one.mp h1
      norm_num at this ⊢
      linarith
    · have := Int.le_floor.mp h4
      norm_num at this ⊢
      linarith
    · have := floor_le_iff_lt_add_one.mp h3
      norm_num at this ⊢
      linarith

/-- The axis-separated move pattern of `updatePlayer`: each axis move is
committed only when `sceneCanRectangleFitHere` accepts it, so a clear
starting box stays clear. -/
theorem axis_moves_keep_fit (scene : Scene) (x y nx ny s t : ℚ)
    (h : sceneCanRectangleFitHere scene x y s t = true) :
    sceneCanRectangleFitHere scene
      (if sceneCanRectangleFitHere scene nx y s t then nx else x)
      (if sceneCanRectangleFitHere scene
          (if sceneCanRectangleFitHere scene nx y s t then nx else x) ny s t
        then ny else y) s t = true := by
  by_cases hA : sceneCanRectangleFitHere scene nx y s t = true
  · rw [hA]
    simp only [if_true]
    by_cases hB : sceneCanRectangleFitHere scene nx ny s t = true
    · rw [hB]
      simp [hB]
    · rw [Bool.not_eq_true] at hB
      rw [hB]
      simpa using hA
  · rw [Bool.not_eq_true] at hA
    rw [hA]
    simp only [Bool.false_eq_true, if_false]
    by_cases hB : sceneCanRectangleFitHere scene x ny s t = true
    · rw [hB]
      simpa using hB
    · rw [Bool.not_eq_true] at hB
      rw [hB]
      simpa using h

/-- C1: for every trig interpretation, scene, update input (`deltaTime`
and the four movement flags inside `player`), if before `updatePlayer` no
grid cell intersected by the player's `0.5 × 0.5` collision box is a
wall, the same holds after `updatePlayer`. -/
theorem updatePlayer_box_stays_clear (trig : Trig) (scene : Scene)
    (player : Player) (deltaTime : ℚ)
    (h : boxClearOfWalls scene player.position.x player.position.y) :
    boxClearOfWalls scene (updatePlayer trig player scene deltaTime).position.x
      (updatePlayer trig player scene deltaTime).position.y := by
  rw [← canRectangleFit_iff_boxClear] at h ⊢
  unfold updatePlayer
  simp only [MINIMAP_PLAYER_SIZE]
  exact axis_moves_keep_fit scene _ _ _ _ _ _ h

/-- Witness for C1: a concrete empty scene, player and time step. -/
theorem updatePlayer_box_stays_clear_witness :
    boxClearOfWalls ⟨[], 0, 0⟩
      (updatePlayer ⟨fun _ => 1, fun _ => 0, 314/100⟩
        ⟨⟨0, 0⟩, ⟨0, 0⟩, ⟨0, 0⟩, ⟨0, 0⟩, 0, true, false, false, false⟩
        ⟨[], 0, 0⟩ 1).position.x
      (updatePlayer ⟨fun _ => 1, fun _ => 0, 314/100⟩
        ⟨⟨0, 0⟩, ⟨0, 0⟩, ⟨0, 0⟩, ⟨0, 0⟩, 0, true, false, false, false⟩
        ⟨[], 0, 0⟩ 1).position.y :=
  updatePlayer_box_stays_clear _ _ _ _ (by
    intro cx cy _
    unfold sceneIsWall sceneGetTile sceneContains
    have : ¬((cx : ℚ) < ((0 : ℕ) : ℚ) ∧ (0 : ℚ) ≤ (cx : ℚ)) := by
      push_cast
      intro hc
      linarith [hc.1, hc.2]
    simp only [Tile.isEmpty]
    by_cases h0 : (0 : ℚ) ≤ (cx : ℚ)
    · have h1 : decide ((cx : ℚ) < ((0 : ℕ) : ℚ)) = false := by
        simp only [decide_eq_false_iff_not]
        intro hlt
        exact this ⟨hlt, h0⟩
      simp [h1]
    · have h1 : decide ((0 : ℚ) ≤ (cx : ℚ)) = false := by
        simpa using h0
      simp [h1])

/-- Counterexample to C2: for a SolidColor wall tile at depth
`zBuffer[x] = 1` the factor `renderWalls` applies is `2`, not
`min(2/zBuffer[x], 1) = 1` — the SolidColor branch does not clamp, so the
factor exceeds 1. -/
theorem renderWallsShadow_solid_exceeds_one :
    renderWallsShadow (Tile.solid ⟨1, 0, 0, 1⟩) 1 = some (2 : ℚ) ∧
      ((2 : ℚ) ≠ min (2 / (1 : ℚ)) 1) ∧ ¬((2 : ℚ) ≤ 1) := by
  refine ⟨?_, by norm_num, by norm_num⟩
  unfold renderWallsShadow renderWallsShadowSolid
  norm_num

/-- C2 amended: only the Textured branch clamps.  For Textured wall tiles
the factor is `min(2/zBuffer[x], 1) ≤ 1`; for SolidColor tiles it is the
unclamped `2/zBuffer[x]` (which exceeds 1 whenever `0 < z < 2`). -/
theorem renderWallsShadow_amended (img : Image) (c : RGBA) (z : ℚ) :
    renderWallsShadow (Tile.textured img) z = some (min (2 / z) 1) ∧
      min (2 / z) 1 ≤ 1 ∧
      renderWallsShadow (Tile.solid c) z = some (2 / z) := by
  have hdiv : 1 / z * 2 = 2 / z := by ring
  refine ⟨?_, min_le_right _ _, ?_⟩
  · show some (renderWallsShadowTextured z) = some (min (2 / z) 1)
    unfold renderWallsShadowTextured
    rw [hdiv]
  · show some (renderWallsShadowSolid z) = some (2 / z)
    unfold renderWallsShadowSolid
    rw [hdiv]

/-- Counterexample to C3: with the player facing east the bomb's velocity
is set to `(5, 0, 5/2)` — the raw vector `(cos θ, sin θ, 0.5)` scaled by
`BOMB_THROW_VELOCITY = 5`, *not* its unit vector scaled by 5: no unit
vector `u` satisfies `(5, 0, 5/2) = u.scale 5` (the squared length is
`125/4`, not `25`). -/
theorem throwBomb_velocity_not_unit_scaled :
    (throwBomb trig0 player0 [⟨⟨0, 0, 0⟩, ⟨0, 0, 0⟩, 0⟩]).map Bomb.velocity
        = [⟨5, 0, 5/2⟩] ∧
      ¬∃ u : V3, u.sqrLength = 1 ∧
        (⟨5, 0, 5/2⟩ : V3) = u.scale BOMB_THROW_VELOCITY := by
  constructor
  · simp only [throwBomb, trig0, player0, BOMB_THROW_VELOCITY, BOMB_LIFETIME,
      V3.copy2, V3.scale, List.map_cons, List.map_nil]
    norm_num
  · rintro ⟨u, hu, heq⟩
    simp only [V3.scale, BOMB_THROW_VELOCITY, V3.mk.injEq] at heq
    obtain ⟨hx, hy, hz⟩ := heq
    simp only [V3.sqrLength] at hu
    have hux : u.x = 1 := by linarith
    have huy : u.y = 0 := by linarith
    have huz : u.z = 1/2 := by linarith
    rw [hux, huy, huz] at hu
    norm_num at hu

/-- C3 amended: `throwBomb` reinitialises exactly the first bomb with
`lifetime ≤ 0`, setting `lifetime = BOMB_LIFETIME = 2`, `position =
(player.x, player.y, 0.6)` and `velocity = (cos θ, sin θ, 0.5) ·
BOMB_THROW_VELOCITY` (the raw vector scaled by 5, with no normalisation);
if every bomb has `lifetime > 0` the list is unchanged. -/
theorem throwBomb_first_inactive (trig : Trig) (player : Player) :
    (∀ pre bomb post, (∀ b ∈ pre, 0 < b.lifetime) → bomb.lifetime ≤ 0 →
      throwBomb trig player (pre ++ bomb :: post) =
        pre ++ { position := V3.copy2 player.position (6/10),
                 velocity := V3.scale ⟨trig.cos player.direction,
                   trig.sin player.direction, 1/2⟩ BOMB_THROW_VELOCITY,
                 lifetime := BOMB_LIFETIME } :: post) ∧
    (∀ bombs : List Bomb, (∀ b ∈ bombs, 0 < b.lifetime) →
      throwBomb trig player bombs = bombs) := by
  constructor
  · intro pre
    induction pre with
    | nil =>
      intro bomb post _ hb
      simp only [List.nil_append, throwBomb, if_pos hb]
    | cons head tail ih =>
      intro bomb post hpre hb
      have hhead : ¬head.lifetime ≤ 0 := by
        have := hpre head (List.mem_cons_self _ _)
        linarith
      simp only [List.cons_append, throwBomb, if_neg hhead, List.append_eq]
      rw [ih bomb post (fun b hbm => hpre b (List.mem_cons_of_mem _ hbm)) hb]
  · intro bombs
    induction bombs with
    | nil => intro _; rfl
    | cons head tail ih =>
      intro h
      have hhead : ¬head.lifetime ≤ 0 := by
        have := h head (List.mem_cons_self _ _)
        linarith
      simp only [throwBomb, if_neg hhead]
      rw [ih fun b hbm => h b (List.mem_cons_of_mem _ hbm)]

/-- Witness for C3 (amended): one inactive bomb is reinitialised; a list
of one active bomb is untouched. -/
theorem throwBomb_first_inactive_witness :
    throwBomb trig0 player0 [⟨⟨0, 0, 0⟩, ⟨0, 0, 0⟩, 0⟩] =
        [⟨⟨0, 0, 6/10⟩, ⟨5, 0, 5/2⟩, 2⟩] ∧
      throwBomb trig0 player0 [⟨⟨1, 2, 3⟩, ⟨0, 0, 0⟩, 1⟩] =
        [⟨⟨1, 2, 3⟩, ⟨0, 0, 0⟩, 1⟩] := by
  constructor
  · have h := (throwBomb_first_inactive trig0 player0).1 []
      ⟨⟨0, 0, 0⟩, ⟨0, 0, 0⟩, 0⟩ [] (by intro b hb; simp at hb) (by norm_num)
    rw [List.nil_append] at h
    rw [h]
    simp only [List.nil_append, trig0, player0, V3.copy2, V3.scale,
      BOMB_THROW_VELOCITY, BOMB_LIFETIME, Bomb.mk.injEq, V3.mk.injEq]
    norm_num
  · exact (throwBomb_first_inactive trig0 player0).2 _
      (by intro b hb; simp only [List.mem_singleton] at hb; rw [hb]; norm_num)

/-! ## Termination of `castRay`: claim C7

The loop advances along a fixed line with fixed direction signs; every
`rayStep` pushes an integer "gridlines crossed" measure up by at least
one, and the measure is bounded while the loop condition holds, so 100
iterations always suffice. -/
theorem qsign_of_pos {q : ℚ} (h : 0 < q) : qsign q = 1 := by
  unfold qsign
  rw [if_pos h]

theorem qsign_of_neg {q : ℚ} (h : q < 0) : qsign q = -1 := by
  unfold qsign
  rw [if_neg (by linarith), if_pos h]

theorem qsign_of_zero {q : ℚ} (h : q = 0) : qsign q = 0 := by
  unfold qsign
  rw [if_neg (by simp [h]), if_neg (by simp [h])]

theorem pos_of_qsign_pos {q : ℚ} (h : 0 < qsign q) : 0 < q := by
  by_contra hq
  rcases lt_or_eq_of_le (not_lt.mp hq) with h' | h'
  · rw [qsign_of_neg h'] at h
    norm_num at h
  · rw [qsign_of_zero h'] at h
    norm_num at h

theorem neg_of_qsign_neg {q : ℚ} (h : qsign q < 0) : q < 0 := by
  by_contra hq
  rcases lt_or_eq_of_le (not_lt.mp hq) with h' | h'
  · rw [qsign_of_pos h'] at h
    norm_num at h
  · rw [qsign_of_zero h'.symm] at h
    norm_num at h

theorem qsign_mul (a b : ℚ) : qsign (a * b) = qsign a * qsign b := by
  rcases lt_trichotomy 0 a with ha | ha | ha
  · rcases lt_trichotomy 0 b with hb | hb | hb
    · rw [qsign_of_pos (mul_pos ha hb), qsign_of_pos ha, qsign_of_pos hb]
      norm_num
    · rw [qsign_of_zero (by rw [← hb, mul_zero]), qsign_of_pos ha,
        qsign_of_zero hb.symm]
      norm_num
    · rw [qsign_of_neg (mul_neg_of_pos_of_neg ha hb), qsign_of_pos ha,
        qsign_of_neg hb]
      norm_num
  · rw [qsign_of_zero (by rw [← ha, zero_mul]), qsign_of_zero ha.symm,
      zero_mul]
  · rcases lt_trichotomy 0 b with hb | hb | hb
    · rw [qsign_of_neg (mul_neg_of_neg_of_pos ha hb), qsign_of_neg ha,
        qsign_of_pos hb]
      norm_num
    · rw [qsign_of_zero (by rw [← hb, mul_zero]), qsign_of_neg ha,
        qsign_of_zero hb.symm]
      norm_num
    · rw [qsign_of_pos (mul_pos_of_neg_of_neg ha hb), qsign_of_neg ha,
        qsign_of_neg hb]
      norm_num

theorem qsign_inv (b : ℚ) : qsign b⁻¹ = qsign b := by
  rcases lt_trichotomy 0 b with hb | hb | hb
  · rw [qsign_of_pos (inv_pos.mpr hb), qsign_of_pos hb]
  · rw [← hb]
    norm_num
  · rw [qsign_of_neg (inv_neg''.mpr hb), qsign_of_neg hb]

theorem qsign_div (a b : ℚ) : qsign (a / b) = qsign a * qsign b := by
  rw [div_eq_mul_inv, qsign_mul, qsign_inv]

theorem qsign_sq_of_ne {a : ℚ} (h : a ≠ 0) : qsign a * qsign a = 1 := by
  rcases lt_trichotomy 0 a with ha | ha | ha
  · rw [qsign_of_pos ha]
    norm_num
  · exact absurd ha.symm h
  · rw [qsign_of_neg ha]
    norm_num

theorem snap_pos_spec {x dx : ℚ} (h : 0 < dx) :
    snap x dx = ((⌈x + EPS⌉ : ℤ) : ℚ) ∧ x < snap x dx ∧
      ⌊x⌋ + 1 ≤ ⌈x + EPS⌉ := by
  have hq : qsign dx * EPS = EPS := by rw [qsign_of_pos h, one_mul]
  have heq : snap x dx = ((⌈x + EPS⌉ : ℤ) : ℚ) := by
    unfold snap
    rw [if_pos h, hq]
  have heps : (0 : ℚ) < EPS := by norm_num [EPS]
  refine ⟨heq, ?_, ?_⟩
  · rw [heq]
    calc x < x + EPS := by linarith
    _ ≤ ((⌈x + EPS⌉ : ℤ) : ℚ) := Int.le_ceil _
  · have : (⌊x⌋ : ℚ) < x + EPS := by
      have := Int.floor_le x
      linarith
    have := Int.lt_ceil.mpr this
    omega

theorem snap_neg_spec {x dx : ℚ} (h : dx < 0) :
    snap x dx = ((⌊x - EPS⌋ : ℤ) : ℚ) ∧ snap x dx < x ∧
      ⌊x - EPS⌋ ≤ ⌈x⌉ - 1 := by
  have hq : x + qsign dx * EPS = x - EPS := by
    rw [qsign_of_neg h]
    ring
  have heq : snap x dx = ((⌊x - EPS⌋ : ℤ) : ℚ) := by
    unfold snap
    rw [if_neg (by linarith), if_pos h, hq]
  have heps : (0 : ℚ) < EPS := by norm_num [EPS]
  refine ⟨heq, ?_, ?_⟩
  · rw [heq]
    calc ((⌊x - EPS⌋ : ℤ) : ℚ) ≤ x - EPS := Int.floor_le _
    _ < x := by linarith
  · have : x - EPS < (⌈x⌉ : ℚ) := by
      have := Int.le_ceil x
      linarith
    have := Int.floor_lt.mpr this
    omega

theorem psi_mono {s a b : ℚ} (hdir : 0 < s → a ≤ b) (hdir' : s < 0 → b ≤ a) :
    psi s a ≤ psi s b := by
  unfold psi
  by_cases hs : 0 < s
  · rw [if_pos hs, if_pos hs]
    exact Int.floor_le_floor (hdir hs)
  · rw [if_neg hs, if_neg hs]
    by_cases hs' : s < 0
    · rw [if_pos hs', if_pos hs']
      have := Int.ceil_le_ceil (hdir' hs')
      omega
    · rw [if_neg hs', if_neg hs']

theorem psi_pos_eval {s : ℚ} (h : 0 < s) (a : ℚ) : psi s a = ⌊a⌋ := by
  unfold psi
  rw [if_pos h]

theorem psi_neg_eval {s : ℚ} (h : s < 0) (a : ℚ) : psi s a = -⌈a⌉ := by
  unfold psi
  rw [if_neg (by linarith), if_pos h]

theorem psi_zero_eval {s : ℚ} (h : s = 0) (a : ℚ) : psi s a = 0 := by
  unfold psi
  rw [if_neg (by simp [h]), if_neg (by simp [h])]

/-- The line through `p1` and `p2` evaluated at `p2.x` recovers `p2.y`. -/
theorem line_through (p1 p2 : V2) (hdx : p2.x - p1.x ≠ 0) :
    (p2.y - p1.y) / (p2.x - p1.x) * p2.x +
      (p1.y - (p2.y - p1.y) / (p2.x - p1.x) * p1.x) = p2.y := by
  have hk : (p2.y - p1.y) / (p2.x - p1.x) * (p2.x - p1.x) = p2.y - p1.y :=
    div_mul_cancel₀ _ hdx
  linear_combination hk

theorem rayStepX_advance (p1 p2 : V2) (hdx : p2.x - p1.x ≠ 0) :
    qsign ((rayStepX p1 p2).x - p2.x) = qsign (p2.x - p1.x) ∧
    qsign ((rayStepX p1 p2).y - p2.y) = qsign (p2.y - p1.y) ∧
    mu (qsign (p2.x - p1.x)) (qsign (p2.y - p1.y)) p2 + 1 ≤
      mu (qsign (p2.x - p1.x)) (qsign (p2.y - p1.y)) (rayStepX p1 p2) := by
  have hX : (rayStepX p1 p2).x = snap p2.x (p2.x - p1.x) := rfl
  have hY : (rayStepX p1 p2).y =
      snap p2.x (p2.x - p1.x) * ((p2.y - p1.y) / (p2.x - p1.x)) +
        (p1.y - (p2.y - p1.y) / (p2.x - p1.x) * p1.x) := rfl
  have hyc : (rayStepX p1 p2).y - p2.y =
      (p2.y - p1.y) / (p2.x - p1.x) * ((rayStepX p1 p2).x - p2.x) := by
    rw [hY, hX]
    linear_combination line_through p1 p2 hdx
  have hsx : qsign ((rayStepX p1 p2).x - p2.x) = qsign (p2.x - p1.x) := by
    rcases hdx.lt_or_lt with h | h
    · obtain ⟨_, hlt, _⟩ := @snap_neg_spec p2.x _ h
      rw [hX, qsign_of_neg (by linarith), qsign_of_neg h]
    · obtain ⟨_, hlt, _⟩ := @snap_pos_spec p2.x _ h
      rw [hX, qsign_of_pos (by linarith), qsign_of_pos h]
  have hsy : qsign ((rayStepX p1 p2).y - p2.y) = qsign (p2.y - p1.y) := by
    rw [hyc, qsign_mul, qsign_div, hsx, mul_assoc, qsign_sq_of_ne hdx, mul_one]
  refine ⟨hsx, hsy, ?_⟩
  have hpx : psi (qsign (p2.x - p1.x)) p2.x + 1 ≤
      psi (qsign (p2.x - p1.x)) (rayStepX p1 p2).x := by
    rcases hdx.lt_or_lt with h | h
    · obtain ⟨heq, _, hfl⟩ := @snap_neg_spec p2.x _ h
      have hs : qsign (p2.x - p1.x) < 0 := by
        rw [qsign_of_neg h]
        norm_num
      rw [psi_neg_eval hs, psi_neg_eval hs, hX, heq, Int.ceil_intCast]
      omega
    · obtain ⟨heq, _, hfl⟩ := @snap_pos_spec p2.x _ h
      have hs : 0 < qsign (p2.x - p1.x) := by
        rw [qsign_of_pos h]
        norm_num
      rw [psi_pos_eval hs, psi_pos_eval hs, hX, heq, Int.floor_intCast]
      omega
  have hpy : psi (qsign (p2.y - p1.y)) p2.y ≤
      psi (qsign (p2.y - p1.y)) (rayStepX p1 p2).y := by
    apply psi_mono
    · intro hqs
      have : 0 < (rayStepX p1 p2).y - p2.y := pos_of_qsign_pos (by rw [hsy]; exact hqs)
      linarith
    · intro hqs
      have : (rayStepX p1 p2).y - p2.y < 0 := neg_of_qsign_neg (by rw [hsy]; exact hqs)
      linarith
  unfold mu
  omega

theorem rayStepY_advance (p1 p2 : V2) (hdx : p2.x - p1.x ≠ 0)
    (hk : (p2.y - p1.y) / (p2.x - p1.x) ≠ 0) :
    qsign ((rayStepY p1 p2).x - p2.x) = qsign (p2.x - p1.x) ∧
    qsign ((rayStepY p1 p2).y - p2.y) = qsign (p2.y - p1.y) ∧
    mu (qsign (p2.x - p1.x)) (qsign (p2.y - p1.y)) p2 + 1 ≤
      mu (qsign (p2.x - p1.x)) (qsign (p2.y - p1.y)) (rayStepY p1 p2) := by
  have hdy : p2.y - p1.y ≠ 0 := by
    intro h0
    exact hk (by rw [h0, zero_div])
  have hY : (rayStepY p1 p2).y = snap p2.y (p2.y - p1.y) := rfl
  have hX : (rayStepY p1 p2).x =
      (snap p2.y (p2.y - p1.y) - (p1.y - (p2.y - p1.y) / (p2.x - p1.x) * p1.x)) /
        ((p2.y - p1.y) / (p2.x - p1.x)) := rfl
  have hxc : (rayStepY p1 p2).x - p2.x =
      ((rayStepY p1 p2).y - p2.y) / ((p2.y - p1.y) / (p2.x - p1.x)) := by
    rw [eq_div_iff hk, hX, hY, sub_mul, div_mul_cancel₀ _ hk]
    linear_combination -line_through p1 p2 hdx
  have hsy : qsign ((rayStepY p1 p2).y - p2.y) = qsign (p2.y - p1.y) := by
    rcases hdy.lt_or_lt with h | h
    · obtain ⟨_, hlt, _⟩ := @snap_neg_spec p2.y _ h
      rw [hY, qsign_of_neg (by linarith), qsign_of_neg h]
    · obtain ⟨_, hlt, _⟩ := @snap_pos_spec p2.y _ h
      rw [hY, qsign_of_pos (by linarith), qsign_of_pos h]
  have hsx : qsign ((rayStepY p1 p2).x - p2.x) = qsign (p2.x - p1.x) := by
    rw [hxc, qsign_div, hsy, qsign_div, ← mul_assoc, qsign_sq_of_ne hdy, one_mul]
  refine ⟨hsx, hsy, ?_⟩
  have hpy : psi (qsign (p2.y - p1.y)) p2.y + 1 ≤
      psi (qsign (p2.y - p1.y)) (rayStepY p1 p2).y := by
    rcases hdy.lt_or_lt with h | h
    · obtain ⟨heq, _, hfl⟩ := @snap_neg_spec p2.y _ h
      have hs : qsign (p2.y - p1.y) < 0 := by
        rw [qsign_of_neg h]
        norm_num
      rw [psi_neg_eval hs, psi_neg_eval hs, hY, heq, Int.ceil_intCast]
      omega
    · obtain ⟨heq, _, hfl⟩ := @snap_pos_spec p2.y _ h
      have hs : 0 < qsign (p2.y - p1.y) := by
        rw [qsign_of_pos h]
        norm_num
      rw [psi_pos_eval hs, psi_pos_eval hs, hY, heq, Int.floor_intCast]
      omega
  have hpx : psi (qsign (p2.x - p1.x)) p2.x ≤
      psi (qsign (p2.x - p1.x)) (rayStepY p1 p2).x := by
    apply psi_mono
    · intro hqs
      have : 0 < (rayStepY p1 p2).x - p2.x := pos_of_qsign_pos (by rw [hsx]; exact hqs)
      linarith
    · intro hqs
      have : (rayStepY p1 p2).x - p2.x < 0 := neg_of_qsign_neg (by rw [hsx]; exact hqs)
      linarith
  unfold mu
  omega

theorem rayStep_advance (p1 p2 : V2) (hne : p1 ≠ p2) :
    qsign ((rayStep p1 p2).x - p2.x) = qsign (p2.x - p1.x) ∧
    qsign ((rayStep p1 p2).y - p2.y) = qsign (p2.y - p1.y) ∧
    mu (qsign (p2.x - p1.x)) (qsign (p2.y - p1.y)) p2 + 1 ≤
      mu (qsign (p2.x - p1.x)) (qsign (p2.y - p1.y)) (rayStep p1 p2) := by
  by_cases hdx : p2.x - p1.x ≠ 0
  · have hcases : rayStep p1 p2 = rayStepX p1 p2 ∨
        ((p2.y - p1.y) / (p2.x - p1.x) ≠ 0 ∧ rayStep p1 p2 = rayStepY p1 p2) := by
      unfold rayStep
      rw [if_pos hdx]
      by_cases hk : (p2.y - p1.y) / (p2.x - p1.x) ≠ 0
      · rw [if_pos hk]
        by_cases hd : p2.sqrDistanceTo (rayStepY p1 p2) <
            p2.sqrDistanceTo (rayStepX p1 p2)
        · right
          exact ⟨hk, by rw [if_pos hd]⟩
        · left
          rw [if_neg hd]
      · left
        rw [if_neg hk]
    rcases hcases with h | ⟨hk, h⟩
    · rw [h]
      exact rayStepX_advance p1 p2 hdx
    · rw [h]
      exact rayStepY_advance p1 p2 hdx hk
  · push_neg at hdx
    have hdy : p2.y - p1.y ≠ 0 := by
      intro h0
      exact hne (V2.ext (by linarith) (by linarith))
    have hstep : rayStep p1 p2 = ⟨p2.x, snap p2.y (p2.y - p1.y)⟩ := by
      unfold rayStep
      rw [if_neg (not_not_intro hdx)]
    rw [hstep]
    have hsx : qsign ((p2.x : ℚ) - p2.x) = qsign (p2.x - p1.x) := by
      rw [hdx]
      simp
    have hsy : qsign (snap p2.y (p2.y - p1.y) - p2.y) = qsign (p2.y - p1.y) := by
      rcases hdy.lt_or_lt with h | h
      · obtain ⟨_, hlt, _⟩ := @snap_neg_spec p2.y _ h
        rw [qsign_of_neg (by linarith), qsign_of_neg h]
      · obtain ⟨_, hlt, _⟩ := @snap_pos_spec p2.y _ h
        rw [qsign_of_pos (by linarith), qsign_of_pos h]
    refine ⟨hsx, hsy, ?_⟩
    have hpy : psi (qsign (p2.y - p1.y)) p2.y + 1 ≤
        psi (qsign (p2.y - p1.y)) (snap p2.y (p2.y - p1.y)) := by
      rcases hdy.lt_or_lt with h | h
      · obtain ⟨heq, _, hfl⟩ := @snap_neg_spec p2.y _ h
        have hs : qsign (p2.y - p1.y) < 0 := by
          rw [qsign_of_neg h]
          norm_num
        rw [psi_neg_eval hs, psi_neg_eval hs, heq, Int.ceil_intCast]
        omega
      · obtain ⟨heq, _, hfl⟩ := @snap_pos_spec p2.y _ h
        have hs : 0 < qsign (p2.y - p1.y) := by
          rw [qsign_of_pos h]
          norm_num
        rw [psi_pos_eval hs, psi_pos_eval hs, heq, Int.floor_intCast]
        omega
    unfold mu
    dsimp only
    omega

theorem psi_shift_le {s a b : ℚ} (h1 : a ≤ b + 10) (h2 : b - 10 ≤ a) :
    psi s a ≤ psi s b + 10 := by
  by_cases hs : 0 < s
  · rw [psi_pos_eval hs, psi_pos_eval hs]
    have : ⌊a⌋ ≤ ⌊b + (10 : ℤ)⌋ := Int.floor_le_floor (by push_cast; linarith)
    rw [Int.floor_add_int] at this
    omega
  · by_cases hs' : s < 0
    · rw [psi_neg_eval hs', psi_neg_eval hs']
      have : ⌈b - (10 : ℤ)⌉ ≤ ⌈a⌉ := Int.ceil_le_ceil (by push_cast; linarith)
      rw [Int.ceil_sub_int] at this
      omega
    · have h0 : s = 0 := by linarith
      rw [psi_zero_eval h0, psi_zero_eval h0]
      omega

/-- While the `castRay` loop condition holds, a point is within 10 world
units of `start` per axis, so its gauge exceeds the start gauge by at most
20. -/
theorem mu_le_of_close {start p : V2} (sx sy : ℚ)
    (h : start.sqrDistanceTo p < FAR_CLIPPING_PLANE * FAR_CLIPPING_PLANE) :
    mu sx sy p ≤ mu sx sy start + 20 := by
  unfold V2.sqrDistanceTo FAR_CLIPPING_PLANE at h
  have hx1 : p.x ≤ start.x + 10 := by nlinarith
  have hx2 : start.x - 10 ≤ p.x := by nlinarith
  have hy1 : p.y ≤ start.y + 10 := by nlinarith
  have hy2 : start.y - 10 ≤ p.y := by nlinarith
  have := @psi_shift_le sx _ _ hx1 hx2
  have := @psi_shift_le sy _ _ hy1 hy2
  unfold mu
  omega

/-- The gauge of the second ray point is at least that of the first, for
the direction signs of that very pair. -/
theorem mu_start_le (p1 p2 : V2) :
    mu (qsign (p2.x - p1.x)) (qsign (p2.y - p1.y)) p1 ≤
      mu (qsign (p2.x - p1.x)) (qsign (p2.y - p1.y)) p2 := by
  have hx : psi (qsign (p2.x - p1.x)) p1.x ≤ psi (qsign (p2.x - p1.x)) p2.x := by
    apply psi_mono
    · intro hqs
      have := pos_of_qsign_pos hqs
      linarith
    · intro hqs
      have := neg_of_qsign_neg hqs
      linarith
  have hy : psi (qsign (p2.y - p1.y)) p1.y ≤ psi (qsign (p2.y - p1.y)) p2.y := by
    apply psi_mono
    · intro hqs
      have := pos_of_qsign_pos hqs
      linarith
    · intro hqs
      have := neg_of_qsign_neg hqs
      linarith
  unfold mu
  omega

theorem castRayAux_isSome (scene : Scene) (start : V2) :
    ∀ (n : ℕ) (p1 p2 : V2), p1 ≠ p2 →
      mu (qsign (p2.x - p1.x)) (qsign (p2.y - p1.y)) p1 + 1 ≤
        mu (qsign (p2.x - p1.x)) (qsign (p2.y - p1.y)) p2 →
      mu (qsign (p2.x - p1.x)) (qsign (p2.y - p1.y)) start + 22 ≤
        mu (qsign (p2.x - p1.x)) (qsign (p2.y - p1.y)) p1 + n →
      (castRayAux scene start n p1 p2).isSome = true := by
  intro n
  induction n with
  | zero =>
    intro p1 p2 hne hord hbound
    unfold castRayAux
    by_cases hcond : start.sqrDistanceTo p1 <
        FAR_CLIPPING_PLANE * FAR_CLIPPING_PLANE
    · exfalso
      have := mu_le_of_close (qsign (p2.x - p1.x)) (qsign (p2.y - p1.y)) hcond
      omega
    · rw [if_neg hcond]
      simp
  | succ n ih =>
    intro p1 p2 hne hord hbound
    unfold castRayAux
    by_cases hcond : start.sqrDistanceTo p1 <
        FAR_CLIPPING_PLANE * FAR_CLIPPING_PLANE
    · rw [if_pos hcond]
      by_cases hwall : sceneIsWall scene (hittingCell p1 p2) = true
      · rw [hwall]
        simp
      · rw [Bool.not_eq_true] at hwall
        rw [hwall]
        simp only [Bool.false_eq_true, if_false]
        obtain ⟨hsx, hsy, hmu⟩ := rayStep_advance p1 p2 hne
        have hclose := mu_le_of_close (qsign (p2.x - p1.x))
          (qsign (p2.y - p1.y)) hcond
        apply ih p2 (rayStep p1 p2)
        · intro heq
          rw [← heq] at hmu
          omega
        · rw [hsx, hsy]
          exact hmu
        · rw [hsx, hsy]
          omega
    · rw [if_neg hcond]
      simp

/-- C7: `castRay` terminates for every scene and every pair of distinct
points: the instrumented loop `castRayAux` finishes (returns `some`)
within its fuel of 100 iterations, because each `rayStep` strictly
advances the ray point past the next gridline crossing and the loop stops
once the squared distance from the start reaches `FAR_CLIPPING_PLANE² =
100` or the hit cell is a wall. -/
theorem castRay_terminates (scene : Scene) (p1 p2 : V2) (hne : p1 ≠ p2) :
    (castRay scene p1 p2).isSome = true := by
  unfold castRay
  show (castRayAux scene p1 (99 + 1) p1 p2).isSome = true
  unfold castRayAux
  by_cases hcond : p1.sqrDistanceTo p1 <
      FAR_CLIPPING_PLANE * FAR_CLIPPING_PLANE
  · rw [if_pos hcond]
    by_cases hwall : sceneIsWall scene (hittingCell p1 p2) = true
    · rw [hwall]
      simp
    · rw [Bool.not_eq_true] at hwall
      rw [hwall]
      simp only [Bool.false_eq_true, if_false]
      obtain ⟨hsx, hsy, hmu⟩ := rayStep_advance p1 p2 hne
      have hstart := mu_start_le p1 p2
      apply castRayAux_isSome scene p1 99 p2 (rayStep p1 p2)
      · intro heq
        rw [← heq] at hmu
        omega
      · rw [hsx, hsy]
        exact hmu
      · rw [hsx, hsy]
        omega
  · rw [if_neg hcond]
    simp

/-- Witness for C7: a concrete distinct pair in a concrete scene. -/
theorem castRay_terminates_witness :
    (castRay ⟨[Tile.solid ⟨1, 1, 1, 1⟩], 1, 1⟩ ⟨0, 0⟩ ⟨1, 1⟩).isSome = true :=
  castRay_terminates _ _ _ (by
    intro h
    have := congrArg V2.x h
    norm_num at this)

theorem blend1_of_ne {data : ℕ → ℕ} {p i : ℕ} (h : i ≠ p) (src alpha : ℚ) :
    blend1 data p src alpha i = data i := by
  unfold blend1
  exact Function.update_noteq h _ _

theorem blend3_of_ne {data : ℕ → ℕ} {P i : ℕ}
    (h0 : i ≠ P) (h1 : i ≠ P + 1) (h2 : i ≠ P + 2) (s0 s1 s2 a0 a1 a2 : ℚ) :
    blend1 (blend1 (blend1 data P s0 a0) (P + 1) s1 a1) (P + 2) s2 a2 i =
      data i := by
  rw [blend1_of_ne h2, blend1_of_ne h1, blend1_of_ne h0]

theorem foldl_data_preserve {β : Type _} (f : (ℕ → ℕ) → β → ℕ → ℕ)
    (l : List β) (i : ℕ) (h : ∀ data b, b ∈ l → f data b i = data i) :
    ∀ data, (l.foldl f data) i = data i := by
  induction l with
  | nil => intro data; rfl
  | cons hd tl ih =>
    intro data
    rw [List.foldl_cons,
      ih (fun data b hb => h data b (List.mem_cons_of_mem _ hb)) (f data hd)]
    exact h data hd (List.mem_cons_self _ _)

/-- Two byte offsets in distinct framebuffer columns never alias: the
offset `(y·W + x)·4 + c` determines the channel `c` and, because both
columns are within the row, the column `x`. -/
theorem column_index_ne {W x xp y yp c cp : ℕ} (hx : x < W) (hxp : xp < W)
    (hne : xp ≠ x) (hc : c < 4) (hcp : cp < 4) :
    (y * W + x) * 4 + c ≠ (yp * W + xp) * 4 + cp := by
  intro h
  have hAB : y * W + x = yp * W + xp := by omega
  have h1 : (y * W + x) % W = x := by
    rw [Nat.mul_comm, Nat.mul_add_mod]
    exact Nat.mod_eq_of_lt hx
  have h2 : (yp * W + xp) % W = xp := by
    rw [Nat.mul_comm, Nat.mul_add_mod]
    exact Nat.mod_eq_of_lt hxp
  rw [hAB, h2] at h1
  exact hne h1

/-- C5: for every display, sprite and framebuffer column `x` inside the
sprite's clipped horizontal range, if `zBuffer[x] ≤ pdist` (so in
particular at exact equality) then drawing that sprite leaves every pixel
byte of column `x` unchanged: the occlusion test of `renderSprites` is the
strict comparison `pdist < zBuffer[x]`, and writes to other columns never
alias column `x`. -/
theorem drawSprite_occluded_column (d : Display) (s : Sprite) (x : ℕ)
    (h1 : spriteBX1 d.width d.height s ≤ (x : ℤ))
    (h2 : (x : ℤ) ≤ spriteBX2 d.width d.height s)
    (hz : d.zBuffer x ≤ s.pdist) (y c : ℕ) (hc : c < 4) :
    (drawSprite d s).data ((y * d.width + x) * 4 + c) =
      d.data ((y * d.width + x) * 4 + c) := by
  have hxW : x < d.width := by
    have hb2 : spriteBX2 d.width d.height s ≤ (d.width : ℤ) - 1 :=
      min_le_left _ _
    omega
  have hxs : ∀ xp : ℕ, xp ∈ List.range' (spriteBX1 d.width d.height s).toNat
      (spriteBX2 d.width d.height s + 1 - spriteBX1 d.width d.height s).toNat →
      xp < d.width := by
    intro xp hxp
    rw [List.mem_range'_1] at hxp
    have hb1 : (0 : ℤ) ≤ spriteBX1 d.width d.height s := le_max_left _ _
    have hb2 : spriteBX2 d.width d.height s ≤ (d.width : ℤ) - 1 :=
      min_le_left _ _
    omega
  rcases himg : s.image with cimg | img <;>
    simp only [drawSprite, himg] <;>
    apply foldl_data_preserve <;>
    intro data xp hxp <;>
    by_cases hxx : xp = x
  · subst hxx
    rw [if_neg (not_lt.mpr hz)]
  · by_cases hguard : s.pdist < d.zBuffer xp
    · rw [if_pos hguard]
      apply foldl_data_preserve
      intro data2 yp hyp
      dsimp only
      have hk0 : (y * d.width + x) * 4 + c ≠ (yp * d.width + xp) * 4 := by
        have hk := @column_index_ne d.width x xp y yp c 0 hxW (hxs xp hxp)
          hxx hc (by norm_num)
        simpa using hk
      have hk1 := @column_index_ne d.width x xp y yp c 1 hxW (hxs xp hxp)
        hxx hc (by norm_num)
      have hk2 := @column_index_ne d.width x xp y yp c 2 hxW (hxs xp hxp)
        hxx hc (by norm_num)
      exact blend3_of_ne hk0 hk1 hk2 _ _ _ _ _ _
    · rw [if_neg hguard]
  · subst hxx
    rw [if_neg (not_lt.mpr hz)]
  · by_cases hguard : s.pdist < d.zBuffer xp
    · rw [if_pos hguard]
      apply foldl_data_preserve
      intro data2 yp hyp
      dsimp only
      have hk0 : (y * d.width + x) * 4 + c ≠ (yp * d.width + xp) * 4 := by
        have hk := @column_index_ne d.width x xp y yp c 0 hxW (hxs xp hxp)
          hxx hc (by norm_num)
        simpa using hk
      have hk1 := @column_index_ne d.width x xp y yp c 1 hxW (hxs xp hxp)
        hxx hc (by norm_num)
      have hk2 := @column_index_ne d.width x xp y yp c 2 hxW (hxs xp hxp)
        hxx hc (by norm_num)
      exact blend3_of_ne hk0 hk1 hk2 _ _ _ _ _ _
    · rw [if_neg hguard]

/-- Witness for C5: column 1 is inside the concrete sprite's range, its
`zBuffer` entry 1 is below `pdist = 2`, and the byte at channel 0 of row 0
is untouched. -/
theorem drawSprite_occluded_column_witness :
    (drawSprite display0 sprite0).data ((0 * display0.width + 1) * 4 + 0) =
      display0.data ((0 * display0.width + 1) * 4 + 0) :=
  drawSprite_occluded_column display0 sprite0 1
    (by norm_num [spriteBX1, spriteX1, spriteSizeQ, spriteMaxSize,
      display0, sprite0])
    (by norm_num [spriteBX2, spriteX2, spriteX1, spriteSizeQ, spriteMaxSize,
      display0, sprite0])
    (by norm_num [display0, sprite0]) 0 0 (by norm_num)

/-! ## The sprite pass never writes the z-buffer: claim C10 -/
theorem drawSprite_zBuffer (d : Display) (s : Sprite) :
    (drawSprite d s).zBuffer = d.zBuffer := by
  rcases himg : s.image with cimg | img <;> simp only [drawSprite, himg]

/-- C10: `renderSprites` never writes `display.zBuffer`: after drawing any
list of sprites, every column's z-buffer entry is exactly what it was
before the sprite pass — i.e. whatever `renderWalls` last wrote there.
(`cullSprites`, game.ts lines 423–450, does not even receive the display,
so it cannot touch the z-buffer; see its embedding below.)  Sprites
therefore occlude each other only through paint order, never through the
depth buffer. -/
theorem renderSprites_zBuffer (d : Display) (sprites : List Sprite) (x : ℕ) :
    (renderSprites d sprites).zBuffer x = d.zBuffer x := by
  induction sprites generalizing d with
  | nil => rfl
  | cons hd tl ih =>
    unfold renderSprites at ih ⊢
    rw [List.foldl_cons, ih (drawSprite d hd), drawSprite_zBuffer]

/-- C6 amended: the sprite list `cullSprites` hands to `renderSprites` is
drawn in *non-increasing* `pdist` order: whenever `a` is drawn before `b`,
`b.pdist ≤ a.pdist`.  (The strict version is false for ties; see the
counterexample.) -/
theorem cullSprites_pdist_nonincreasing (trig : Trig) (sq : ℚ → ℚ)
    (player : Player) (pool : SpritePool) :
    (cullSprites trig sq player pool).Pairwise
      (fun a b => b.pdist ≤ a.pdist) := by
  unfold cullSprites
  have hs := @List.sorted_mergeSort Sprite
    (fun a b => decide (b.pdist ≤ a.pdist))
    (fun a b c hab hbc => by
      simp only [decide_eq_true_eq] at hab hbc ⊢
      exact le_trans hbc hab)
    (fun a b => by
      simp only [Bool.or_eq_true, decide_eq_true_eq]
      exact le_total b.pdist a.pdist)
    (cullSpritesVisible trig sq player pool)
  exact hs.imp fun h => of_decide_eq_true h

theorem cullSpritesVisible_ties :
    cullSpritesVisible trigC sqC player0 poolC =
      [⟨SpriteImage.solid ⟨1, 0, 0, 1⟩, ⟨3, 0⟩, 0, 1, 1/10, 3, 0⟩,
       ⟨SpriteImage.solid ⟨1, 0, 0, 1⟩, ⟨3, 0⟩, 0, 1, 1/10, 3, 0⟩] := by
  norm_num [cullSpritesVisible, poolC, sprC, player0, trigC, sqC,
    HALF_FOV_COS, FOV, NEAR_CLIPPING_PLANE, FAR_CLIPPING_PLANE,
    V2.sub, V2.dot, V2.lengthW, V2.sqrLength, V2.normW, V2.scale, V2.add,
    V2.setPolar, V2.distanceToW, V2.sqrDistanceTo]

/-- Counterexample to C6: with two visible sprites of equal `pdist = 3`,
the sorted draw order is *not* strictly decreasing in `pdist` — the first
drawn sprite does not have strictly greater `pdist` than the second. -/
theorem cullSprites_not_strictly_decreasing :
    ¬(cullSprites trigC sqC player0 poolC).Pairwise
      (fun a b => b.pdist < a.pdist) := by
  intro hpair
  unfold cullSprites at hpair
  rw [cullSpritesVisible_ties] at hpair
  have hmem : ∀ a ∈ (([⟨SpriteImage.solid ⟨1, 0, 0, 1⟩, ⟨3, 0⟩, 0, 1, 1/10, 3, 0⟩,
      ⟨SpriteImage.solid ⟨1, 0, 0, 1⟩, ⟨3, 0⟩, 0, 1, 1/10, 3, 0⟩] : List Sprite).mergeSort
        (fun a b => decide (b.pdist ≤ a.pdist))), a.pdist = 3 := by
    intro a ha
    rw [List.mem_mergeSort] at ha
    rcases List.mem_pair.mp ha with rfl | rfl <;> rfl
  have hlen : (([⟨SpriteImage.solid ⟨1, 0, 0, 1⟩, ⟨3, 0⟩, 0, 1, 1/10, 3, 0⟩,
      ⟨SpriteImage.solid ⟨1, 0, 0, 1⟩, ⟨3, 0⟩, 0, 1, 1/10, 3, 0⟩] : List Sprite).mergeSort
        (fun a b => decide (b.pdist ≤ a.pdist))).length = 2 := by
    rw [(List.mergeSort_perm _ _).length_eq]
    rfl
  obtain ⟨a, b, hab⟩ := List.length_eq_two.mp hlen
  rw [hab] at hpair hmem
  have h1 := hmem a (List.mem_cons_self _ _)
  have h2 := hmem b (List.mem_cons_of_mem _ (List.mem_cons_self _ _))
  have hlt := (List.pairwise_cons.mp hpair).1 b (List.mem_cons_self _ _)
  rw [h1, h2] at hlt
  exact lt_irrefl _ hlt

theorem updatePlayer_zero_dt (trig : Trig) (player : Player) (scene : Scene) :
    (updatePlayer trig player scene 0).position = player.position ∧
    (updatePlayer trig player scene 0).direction = player.direction := by
  unfold updatePlayer
  simp only [mul_zero, add_zero, ite_self]
  exact ⟨trivial, trivial⟩

theorem updateItems_no_pickup (trig : Trig) (time : ℚ) (player : Player)
    (assets : Assets) :
    ∀ (items : List Item) (acc : SpritePool × List Item),
      (∀ item ∈ items, item.alive = true →
        PLAYER_RADIUS * PLAYER_RADIUS ≤
          player.position.sqrDistanceTo item.position) →
      (items.foldl (updateItemStep trig time player assets) acc).2 =
        acc.2 ++ items := by
  intro items
  induction items with
  | nil =>
    intro acc _
    simp
  | cons hd tl ih =>
    intro acc h
    rw [List.foldl_cons]
    have halive : (if hd.alive = true ∧
        player.position.sqrDistanceTo hd.position <
          PLAYER_RADIUS * PLAYER_RADIUS then false else hd.alive) = hd.alive := by
      by_cases ha : hd.alive = true
      · rw [if_neg]
        intro hcon
        have := h hd (List.mem_cons_self _ _) ha
        linarith [hcon.2]
      · rw [if_neg]
        intro hcon
        exact ha hcon.1
    have hstep : (updateItemStep trig time player assets acc hd).2 =
        acc.2 ++ [hd] := by
      unfold updateItemStep
      dsimp only
      rw [halive]
    rw [ih _ (fun i hi => h i (List.mem_cons_of_mem _ hi)), hstep]
    simp

theorem updateParticleStep_zero_dt (scene : Scene)
    (acc : SpritePool × List Particle) (p : Particle)
    (h : 0 < p.lifetime →
      sceneIsWall scene ⟨p.position.x, p.position.y⟩ = false ∧
      PARTICLE_SCALE ≤ p.position.z ∧ p.position.z ≤ 1) :
    (updateParticleStep 0 scene acc p).2 = acc.2 ++ [p] := by
  unfold updateParticleStep
  by_cases hl : 0 < p.lifetime
  · obtain ⟨hw, hz1, hz2⟩ := h hl
    rw [if_pos hl]
    dsimp only
    simp only [mul_zero, add_zero, sub_zero]
    rw [hw]
    simp only [Bool.false_eq_true, if_false]
    have hnb : ¬(p.position.z < PARTICLE_SCALE ∨ 1 < p.position.z) := by
      push_neg
      exact ⟨hz1, hz2⟩
    rw [if_neg hnb, if_neg hnb]
  · rw [if_neg hl]

theorem updateParticles_zero_dt (scene : Scene) :
    ∀ (particles : List Particle) (acc : SpritePool × List Particle),
      (∀ p ∈ particles, 0 < p.lifetime →
        sceneIsWall scene ⟨p.position.x, p.position.y⟩ = false ∧
        PARTICLE_SCALE ≤ p.position.z ∧ p.position.z ≤ 1) →
      (particles.foldl (updateParticleStep 0 scene) acc).2 =
        acc.2 ++ particles := by
  intro particles
  induction particles with
  | nil =>
    intro acc _
    simp
  | cons hd tl ih =>
    intro acc h
    rw [List.foldl_cons,
      ih _ (fun q hq => h q (List.mem_cons_of_mem _ hq)),
      updateParticleStep_zero_dt scene acc hd (h hd (List.mem_cons_self _ _))]
    simp

theorem updateBombStep_zero_dt (trig : Trig) (player : Player)
    (scene : Scene) (assets : Assets)
    (acc : SpritePool × List Bomb × List Particle × Rng) (bomb : Bomb)
    (h : 0 < bomb.lifetime →
      sceneIsWall scene ⟨bomb.position.x, bomb.position.y⟩ = false ∧
      BOMB_SCALE ≤ bomb.position.z ∧ bomb.position.z ≤ 1) :
    (updateBombStep trig player scene 0 assets acc bomb).2.1 =
        acc.2.1 ++ [bomb] ∧
      (updateBombStep trig player scene 0 assets acc bomb).2.2.1 =
        acc.2.2.1 ∧
      (updateBombStep trig player scene 0 assets acc bomb).2.2.2 =
        acc.2.2.2 := by
  unfold updateBombStep
  by_cases hl : 0 < bomb.lifetime
  · obtain ⟨hw, hz1, hz2⟩ := h hl
    rw [if_pos hl]
    dsimp only
    simp only [mul_zero, add_zero, sub_zero]
    rw [hw]
    simp only [Bool.false_eq_true, if_false]
    have hnb : ¬(bomb.position.z < BOMB_SCALE ∨ 1 < bomb.position.z) := by
      push_neg
      exact ⟨hz1, hz2⟩
    rw [if_neg hnb, if_neg hnb, if_neg (not_le.mpr hl)]
    exact ⟨rfl, rfl, rfl⟩
  · rw [if_neg hl]
    exact ⟨rfl, rfl, rfl⟩

theorem updateBombs_zero_dt (trig : Trig) (player : Player) (scene : Scene)
    (assets : Assets) :
    ∀ (bombs : List Bomb) (acc : SpritePool × List Bomb × List Particle × Rng),
      (∀ b ∈ bombs, 0 < b.lifetime →
        sceneIsWall scene ⟨b.position.x, b.position.y⟩ = false ∧
        BOMB_SCALE ≤ b.position.z ∧ b.position.z ≤ 1) →
      (bombs.foldl (updateBombStep trig player scene 0 assets) acc).2.1 =
          acc.2.1 ++ bombs ∧
        (bombs.foldl (updateBombStep trig player scene 0 assets) acc).2.2.1 =
          acc.2.2.1 ∧
        (bombs.foldl (updateBombStep trig player scene 0 assets) acc).2.2.2 =
          acc.2.2.2 := by
  intro bombs
  induction bombs with
  | nil =>
    intro acc _
    simp
  | cons hd tl ih =>
    intro acc h
    obtain ⟨h1, h2, h3⟩ :=
      updateBombStep_zero_dt trig player scene assets acc hd
        (h hd (List.mem_cons_self _ _))
    obtain ⟨g1, g2, g3⟩ := ih (updateBombStep trig player scene 0 assets acc hd)
      (fun b hb => h b (List.mem_cons_of_mem _ hb))
    rw [List.foldl_cons]
    refine ⟨?_, ?_, ?_⟩
    · rw [g1, h1]
      simp
    · rw [g2, h2]
    · rw [g3, h3]

/-- The zero-delta one-frame lemma: with no pickup in range and every
active bomb/particle in a legal position, the world-update prefix of
`renderGame` at `deltaTime = 0` leaves the player's position and
direction, the items, the bombs, the particles and the random stream
unchanged. -/
theorem updateWorldState_zero_dt (trig : Trig) (rng : Rng) (g : Game)
    (time : ℚ)
    (hitem : ∀ item ∈ g.items, item.alive = true →
      PLAYER_RADIUS * PLAYER_RADIUS ≤
        g.player.position.sqrDistanceTo item.position)
    (hbomb : ∀ b ∈ g.bombs, 0 < b.lifetime →
      sceneIsWall g.scene ⟨b.position.x, b.position.y⟩ = false ∧
      BOMB_SCALE ≤ b.position.z ∧ b.position.z ≤ 1)
    (hpart : ∀ p ∈ g.particles, 0 < p.lifetime →
      sceneIsWall g.scene ⟨p.position.x, p.position.y⟩ = false ∧
      PARTICLE_SCALE ≤ p.position.z ∧ p.position.z ≤ 1) :
    (updateWorldState trig rng g 0 time).1.player.position =
        g.player.position ∧
      (updateWorldState trig rng g 0 time).1.player.direction =
        g.player.direction ∧
      (updateWorldState trig rng g 0 time).1.items = g.items ∧
      (updateWorldState trig rng g 0 time).1.bombs = g.bombs ∧
      (updateWorldState trig rng g 0 time).1.particles = g.particles ∧
      (updateWorldState trig rng g 0 time).1.scene = g.scene ∧
      (updateWorldState trig rng g 0 time).2 = rng := by
  obtain ⟨hppos, hpdir⟩ := updatePlayer_zero_dt trig g.player g.scene
  have hitems : (updateItems trig { g.spritePool with length := 0 } time
      (updatePlayer trig g.player g.scene 0) g.items g.assets).2 = g.items := by
    unfold updateItems
    rw [updateItems_no_pickup trig time _ g.assets g.items _
      (by rw [hppos]; exact hitem)]
    simp
  have hbombs := updateBombs_zero_dt trig
    (updatePlayer trig g.player g.scene 0) g.scene g.assets g.bombs
    ((updateItems trig { g.spritePool with length := 0 } time
      (updatePlayer trig g.player g.scene 0) g.items g.assets).1,
      [], g.particles, rng) hbomb
  unfold updateWorldState
  dsimp only
  refine ⟨hppos, hpdir, hitems, ?_, ?_, rfl, ?_⟩
  · unfold updateBombs
    rw [hbombs.1]
    simp
  · unfold updateParticles updateBombs
    rw [updateParticles_zero_dt g.scene _ _
      (by rw [hbombs.2.1]; exact hpart)]
    simp [hbombs.2.1]
  · unfold updateBombs
    exact hbombs.2.2

theorem iterateWorld_fields (trig : Trig) (time : ℚ) (g : Game)
    (hitem : ∀ item ∈ g.items, item.alive = true →
      PLAYER_RADIUS * PLAYER_RADIUS ≤
        g.player.position.sqrDistanceTo item.position)
    (hbomb : ∀ b ∈ g.bombs, 0 < b.lifetime →
      sceneIsWall g.scene ⟨b.position.x, b.position.y⟩ = false ∧
      BOMB_SCALE ≤ b.position.z ∧ b.position.z ≤ 1)
    (hpart : ∀ p ∈ g.particles, 0 < p.lifetime →
      sceneIsWall g.scene ⟨p.position.x, p.position.y⟩ = false ∧
      PARTICLE_SCALE ≤ p.position.z ∧ p.position.z ≤ 1) :
    ∀ (n : ℕ) (gp : Game) (rngp : Rng),
      gp.player.position = g.player.position →
      gp.player.direction = g.player.direction →
      gp.items = g.items → gp.bombs = g.bombs → gp.particles = g.particles →
      gp.scene = g.scene →
      (iterateWorld trig time n (gp, rngp)).1.player.position =
          g.player.position ∧
        (iterateWorld trig time n (gp, rngp)).1.player.direction =
          g.player.direction ∧
        (iterateWorld trig time n (gp, rngp)).1.items = g.items ∧
        (iterateWorld trig time n (gp, rngp)).1.bombs = g.bombs ∧
        (iterateWorld trig time n (gp, rngp)).1.particles = g.particles ∧
        (iterateWorld trig time n (gp, rngp)).2 = rngp := by
  intro n
  induction n with
  | zero =>
    intro gp rngp hp hd hi hb hpp hs
    exact ⟨hp, hd, hi, hb, hpp, rfl⟩
  | succ n ih =>
    intro gp rngp hp hd hi hb hpp hs
    have hitem' : ∀ item ∈ gp.items, item.alive = true →
        PLAYER_RADIUS * PLAYER_RADIUS ≤
          gp.player.position.sqrDistanceTo item.position := by
      rw [hi, hp]
      exact hitem
    have hbomb' : ∀ b ∈ gp.bombs, 0 < b.lifetime →
        sceneIsWall gp.scene ⟨b.position.x, b.position.y⟩ = false ∧
        BOMB_SCALE ≤ b.position.z ∧ b.position.z ≤ 1 := by
      rw [hb, hs]
      exact hbomb
    have hpart' : ∀ p ∈ gp.particles, 0 < p.lifetime →
        sceneIsWall gp.scene ⟨p.position.x, p.position.y⟩ = false ∧
        PARTICLE_SCALE ≤ p.position.z ∧ p.position.z ≤ 1 := by
      rw [hpp, hs]
      exact hpart
    obtain ⟨s1, s2, s3, s4, s5, s6, s7⟩ :=
      updateWorldState_zero_dt trig rngp gp time hitem' hbomb' hpart'
    have hpair : updateWorldState trig rngp gp 0 time =
        ((updateWorldState trig rngp gp 0 time).1,
          (updateWorldState trig rngp gp 0 time).2) := rfl
    have hstep : iterateWorld trig time (n + 1) (gp, rngp) =
        iterateWorld trig time n
          ((updateWorldState trig rngp gp 0 time).1, rngp) := by
      show iterateWorld trig time n (updateWorldState trig rngp gp 0 time) = _
      rw [hpair, s7]
    rw [hstep]
    exact ih (updateWorldState trig rngp gp 0 time).1 rngp
      (by rw [s1, hp]) (by rw [s2, hd]) (by rw [s3, hi]) (by rw [s4, hb])
      (by rw [s5, hpp]) (by rw [s6, hs])

/-- C8 amended: for world states in which no alive item is within
`PLAYER_RADIUS` of the player and every active bomb and particle sits
outside wall cells with `z` inside its legal band, any number of
zero-delta `renderGame` frames leaves the world state bit-identical
(player position and direction, every item, every bomb and particle, and
the random stream).  (Without these provisos a zero-delta frame can still
pick up an item — pickup does not depend on `deltaTime` — and damp a
bomb or particle that is inside a wall; see the counterexample.) -/
theorem renderGame_zero_dt_state_unchanged (trig : Trig) (rng : Rng)
    (g : Game) (time : ℚ)
    (hitem : ∀ item ∈ g.items, item.alive = true →
      PLAYER_RADIUS * PLAYER_RADIUS ≤
        g.player.position.sqrDistanceTo item.position)
    (hbomb : ∀ b ∈ g.bombs, 0 < b.lifetime →
      sceneIsWall g.scene ⟨b.position.x, b.position.y⟩ = false ∧
      BOMB_SCALE ≤ b.position.z ∧ b.position.z ≤ 1)
    (hpart : ∀ p ∈ g.particles, 0 < p.lifetime →
      sceneIsWall g.scene ⟨p.position.x, p.position.y⟩ = false ∧
      PARTICLE_SCALE ≤ p.position.z ∧ p.position.z ≤ 1) :
    ∀ n : ℕ,
      (iterateWorld trig time n (g, rng)).1.player.position =
          g.player.position ∧
        (iterateWorld trig time n (g, rng)).1.player.direction =
          g.player.direction ∧
        (iterateWorld trig time n (g, rng)).1.items = g.items ∧
        (iterateWorld trig time n (g, rng)).1.bombs = g.bombs ∧
        (iterateWorld trig time n (g, rng)).1.particles = g.particles ∧
        (iterateWorld trig time n (g, rng)).2 = rng :=
  fun n => iterateWorld_fields trig time g hitem hbomb hpart n g rng
    rfl rfl rfl rfl rfl rfl

theorem sceneIsWall_sceneEmpty (p : V2) : sceneIsWall sceneEmpty p = false := by
  have hc : sceneContains sceneEmpty p = false := by
    apply sceneContains_false_of_oob
    rcases lt_or_ge ⌊p.x⌋ 0 with h | h
    · exact Or.inl h
    · exact Or.inr (Or.inl (by simpa using h))
  unfold sceneIsWall sceneGetTile
  rw [hc]
  simp [Tile.isEmpty]

/-- Counterexample to C8: a single `renderGame` world update with
`deltaTime = 0` flips the alive flag of an item within pickup range —
item pickup does not depend on the time step, so the world state is not
bit-identical after a zero-delta frame. -/
theorem zero_dt_frame_picks_up_item :
    (updateWorldState trig0 rng0 game0 0 0).1.items.map Item.alive = [false] ∧
      game0.items.map Item.alive = [true] := by
  constructor
  · unfold updateWorldState
    dsimp only
    unfold updateItems
    simp only [game0, List.foldl_cons, List.foldl_nil]
    unfold updateItemStep
    dsimp only
    rw [(updatePlayer_zero_dt trig0 player0 sceneEmpty).1]
    norm_num [player0, V2.sqrDistanceTo, PLAYER_RADIUS]
  · rfl

/-- Witness for C8 (amended) at two iterated zero-delta frames on a
concrete world. -/
theorem renderGame_zero_dt_state_unchanged_witness :
    (iterateWorld trig0 0 2 (game1, rng0)).1.player.position =
        game1.player.position ∧
      (iterateWorld trig0 0 2 (game1, rng0)).1.player.direction =
        game1.player.direction ∧
      (iterateWorld trig0 0 2 (game1, rng0)).1.items = game1.items ∧
      (iterateWorld trig0 0 2 (game1, rng0)).1.bombs = game1.bombs ∧
      (iterateWorld trig0 0 2 (game1, rng0)).1.particles = game1.particles ∧
      (iterateWorld trig0 0 2 (game1, rng0)).2 = rng0 :=
  renderGame_zero_dt_state_unchanged trig0 rng0 game1 0
    (by
      intro item hmem halive
      simp only [game1, List.mem_singleton] at hmem
      subst hmem
      norm_num [player0, V2.sqrDistanceTo, PLAYER_RADIUS, game1])
    (by
      intro b hmem hl
      simp only [game1, List.mem_singleton] at hmem
      subst hmem
      refine ⟨?_, ?_, ?_⟩
      · exact sceneIsWall_sceneEmpty _
      · norm_num [BOMB_SCALE]
      · norm_num)
    (by
      intro p hmem hl
      simp only [game1, List.mem_singleton] at hmem
      subst hmem
      refine ⟨?_, ?_, ?_⟩
      · exact sceneIsWall_sceneEmpty _
      · norm_num [PARTICLE_SCALE]
      · norm_num) 2
